import Mathlib

/-!
Shallow embedding of the `stav` reactive state-container core
(`src/create.ts`, `src/internals.ts`, `src/transaction.ts`, `src/utils.ts`).

Modelling conventions:
* State values live in an arbitrary type `V`; each store carries its own
  equality policy `eqFn : V → V → Bool` (the `equalFn` parameter of `create`,
  defaulting to `Object.is` in the source).
* Listeners are opaque: they are identified by natural-number ids and tagged
  with their `inherit` flag, exactly as the `Map<StoreListener, boolean>` of
  `create.ts` does; an insertion-ordered association list models that Map.
  Invoking a listener is modelled as appending an event
  `⟨location, listener id, newState, oldState⟩` to a global log, which captures
  the synchronous call `listener(nextState, state)` of `set`.
* Stores and transactions are identified by their creation index into the
  world's `stores` / `txs` lists; object identity in the source is index
  identity here.  A transaction's `parent` is the ambient transaction at its
  creation, hence always an earlier index; `upsertIn` carries a fuel argument
  (`tid + 1` always suffices on such worlds) only to make the parent-chain
  recursion of `upsertInternals` structurally terminating.
-/

set_option linter.unusedVariables false

namespace Stav

/-- A listener registry entry: listener id paired with its `inherit` tag.
Models one entry of the `Map<StoreListener<T>, boolean>` in `create.ts`. -/
abbrev LEntry := Nat × Bool

/-- The mutable unit owned by a store at a given scope: current state plus the
insertion-ordered listener registry (`Internals<T>` of `internals.ts`). -/
structure Internals (V : Type) where
  state : V
  listeners : List LEntry
deriving DecidableEq, Repr

/-- Per-store data: the root `Internals`, the construction-time initial state,
the equality policy passed to `create`, and the two `txConfig` opt-out symbols
(`nofork`, `nocommit`) as booleans (`create` leaves both unset/false). -/
structure StoreData (V : Type) where
  root : Internals V
  initialState : V
  eqFn : V → V → Bool
  nofork : Bool
  nocommit : Bool

/-- A transaction record: parent pointer (the ambient transaction at creation)
and the per-store fork map, insertion ordered (`Transaction` of
`transaction.ts`). -/
structure TxData (V : Type) where
  parent : Option Nat
  forks : List (Nat × Internals V)
deriving DecidableEq, Repr

/-- The location an operation resolves to: a store's root `Internals`, or the
fork some transaction holds for that store. -/
inductive Loc where
  | root (sid : Nat)
  | fork (tid : Nat) (sid : Nat)
deriving DecidableEq, Repr

/-- One observed listener invocation: the `Internals` location whose registry
fired, the listener id, and the `(newState, oldState)` pair it was passed. -/
structure Ev (V : Type) where
  loc : Loc
  lid : Nat
  next : V
  prev : V
deriving DecidableEq, Repr

/-- Whether an event fired from a transaction fork (rather than a root). -/
def Ev.isFork (e : Ev V) : Bool :=
  match e.loc with
  | .fork _ _ => true
  | .root _ => false

/-- The whole program state: all stores, all transactions, the ambient scope
pointer (`scope` of `transaction.ts`, `null` at program start), and the log of
listener invocations observed so far. -/
structure World (V : Type) where
  stores : List (StoreData V)
  txs : List (TxData V)
  current : Option Nat
  log : List (Ev V)

instance [Inhabited V] : Inhabited (Internals V) := ⟨⟨default, []⟩⟩

instance [Inhabited V] : Inhabited (StoreData V) :=
  ⟨⟨default, default, fun _ _ => false, false, false⟩⟩

instance : Inhabited (TxData V) := ⟨⟨none, []⟩⟩

/-- Association-list lookup with Nat keys (models `Map.get`). -/
def assocGet (k : Nat) : List (Nat × α) → Option α
  | [] => none
  | (k2, v) :: rest => if k2 = k then some v else assocGet k rest

/-- Association-list insert-or-update (models `Map.set`: an existing key keeps
its position, a new key is appended). -/
def assocSet (k : Nat) (v : α) : List (Nat × α) → List (Nat × α)
  | [] => [(k, v)]
  | (k2, v2) :: rest =>
    if k2 = k then (k2, v) :: rest else (k2, v2) :: assocSet k v rest

/-- Update the value at a key if present (models mutating an object already
held in a `Map`). -/
def assocModify (k : Nat) (f : α → α) : List (Nat × α) → List (Nat × α)
  | [] => []
  | (k2, v) :: rest =>
    if k2 = k then (k2, f v) :: rest else (k2, v) :: assocModify k f rest

/-- Update the `n`-th element of a list in place (no-op when out of range). -/
def listModify [Inhabited α] (n : Nat) (f : α → α) (l : List α) : List α :=
  l.set n (f (l.getD n default))

/-- The store record at index `sid`. -/
def World.storeAt [Inhabited V] (w : World V) (sid : Nat) : StoreData V :=
  w.stores.getD sid default

/-- The transaction record at index `tid`. -/
def World.txAt (w : World V) (tid : Nat) : TxData V :=
  w.txs.getD tid default

/-- Read the `Internals` at a location, given the stores and transactions. -/
def readLocIn [Inhabited V] (stores : List (StoreData V))
    (txs : List (TxData V)) : Loc → Internals V
  | .root sid => (stores.getD sid default).root
  | .fork tid sid => (assocGet sid (txs.getD tid default).forks).getD default

/-- Read the `Internals` at a location of a world. -/
def readLoc [Inhabited V] (w : World V) (loc : Loc) : Internals V :=
  readLocIn w.stores w.txs loc

/-- Overwrite the state stored at a location (models `current.state = next`
in `set`, which mutates whichever `Internals` object was resolved). -/
def writeStateAt [Inhabited V] (w : World V) (loc : Loc) (v : V) : World V :=
  match loc with
  | .root sid =>
    { w with stores :=
        listModify sid (fun s => { s with root := { s.root with state := v } }) w.stores }
  | .fork tid sid =>
    { w with txs := listModify tid (fun t => { t with forks := assocModify sid (fun i => { i with state := v }) t.forks }) w.txs }

/-- Overwrite the listener registry at a location (models `listeners.set` /
`listeners.delete` on the resolved `Internals`). -/
def writeListenersAt [Inhabited V] (w : World V) (loc : Loc) (ls : List LEntry) : World V :=
  match loc with
  | .root sid =>
    { w with stores :=
        listModify sid (fun s => { s with root := { s.root with listeners := ls } }) w.stores }
  | .fork tid sid =>
    { w with txs := listModify tid (fun t => { t with forks := assocModify sid (fun i => { i with listeners := ls }) t.forks }) w.txs }

/-- Fuel sufficient to run the parent-chain recursion from a given ambient
transaction: parents are created strictly earlier, so index + 1 steps reach
the root. -/
def txFuel : Option Nat → Nat
  | none => 0
  | some t => t + 1

/-- The internals resolver `upsertInternals` of `internals.ts`:
with no ambient transaction, or for a store carrying the `nofork` symbol,
resolve to the root; otherwise return the ambient transaction's existing fork,
or create one seeded from the parent's recursively-resolved view (state copied,
listeners restricted to the inheritable ones), register it, and return it.
The fuel argument only bounds the parent recursion (see module docstring);
the `p < tid` guard holds on every world whose parents were created earlier. -/
def upsertIn [Inhabited V] (stores : List (StoreData V)) (sid : Nat) :
    Nat → Option Nat → List (TxData V) → List (TxData V) × Loc
  | _, none, txs => (txs, .root sid)
  | 0, some _, txs => (txs, .root sid)
  | fuel + 1, some tid, txs =>
    if (stores.getD sid default).nofork then (txs, .root sid)
    else
      match assocGet sid (txs.getD tid default).forks with
      | some _ => (txs, .fork tid sid)
      | none =>
        let pr :=
          match (txs.getD tid default).parent with
          | none => (txs, Loc.root sid)
          | some p => if p < tid then upsertIn stores sid fuel (some p) txs else (txs, Loc.root sid)
        let seed := readLocIn stores pr.1 pr.2
        let fork : Internals V := ⟨seed.state, seed.listeners.filter (fun l => l.2)⟩
        (listModify tid (fun t => { t with forks := assocSet sid fork t.forks }) pr.1,
         .fork tid sid)

/-- `getInternals` of `internals.ts`: resolve a store against the ambient
transaction, possibly creating forks along the parent chain. -/
def getInternals [Inhabited V] (w : World V) (sid : Nat) : World V × Loc :=
  let r := upsertIn w.stores sid (txFuel w.current) w.current w.txs
  ({ w with txs := r.1 }, r.2)

/-- A `set` argument: a plain value or an updater function
(`StoreUpdater<T> = T | ((state: T) => T)`). -/
inductive Updater (V : Type) where
  | val (v : V)
  | fn (f : V → V)

/-- Resolve a `set` argument against the currently visible state
(the `typeof nextState === "function"` branch of `set`). -/
def applyUpdater (u : Updater V) (s : V) : V :=
  match u with
  | .val v => v
  | .fn f => f s

/-- `store.set` of `create.ts`: resolve the currently visible `Internals`,
resolve a function argument against its state, return unchanged if the
equality policy accepts the pair, otherwise write the new state there and
synchronously invoke every listener of that `Internals`, in registration
order, with `(newState, oldState)`. -/
def setOp [Inhabited V] (w : World V) (sid : Nat) (u : Updater V) : World V :=
  let r := getInternals w sid
  let cur := readLoc r.1 r.2
  let next := applyUpdater u cur.state
  if (w.storeAt sid).eqFn cur.state next then r.1
  else
    let w2 := writeStateAt r.1 r.2 next
    { w2 with log := w2.log ++ cur.listeners.map (fun l => ⟨r.2, l.1, next, cur.state⟩) }

/-- `store.get` of `create.ts`: resolve the currently visible `Internals` and
read its state (resolution may lazily create forks, hence the world result). -/
def getOp [Inhabited V] (w : World V) (sid : Nat) : World V × V :=
  let r := getInternals w sid
  (r.1, (readLoc r.1 r.2).state)

/-- `store.get.initial` of `create.ts`: the literal construction-time value. -/
def getInitialOp [Inhabited V] (w : World V) (sid : Nat) : V :=
  (w.storeAt sid).initialState

/-- `store.subscribe` of `create.ts`: register a listener (with its inherit
tag) in the currently visible `Internals`. -/
def subscribeOp [Inhabited V] (w : World V) (sid : Nat) (lid : Nat) (inh : Bool) : World V :=
  let r := getInternals w sid
  writeListenersAt r.1 r.2 (assocSet lid inh (readLoc r.1 r.2).listeners)

/-- `createTransaction` of `transaction.ts`: append a fresh transaction with
the given parent (the source defaults the parent to the ambient transaction;
callers here pass `w.current` explicitly for that default) and an empty fork
map; returns its index. -/
def createTransaction (w : World V) (parent : Option Nat) : World V × Nat :=
  ({ w with txs := w.txs ++ [⟨parent, []⟩] }, w.txs.length)

/-- `txConfig` of the transaction module: install the `nofork` / `nocommit`
symbols on a store according to `{fork, commit}` options. -/
def txConfig [Inhabited V] (w : World V) (sid : Nat) (fork : Bool) (commit : Bool) : World V :=
  { w with stores := listModify sid (fun s => { s with nofork := if fork then s.nofork else true, nocommit := if commit then s.nocommit else true }) w.stores }

/-- The body of `commit`: for every recorded `(store, fork)` pair in order,
unless the store carries the `nocommit` symbol, perform a plain
`store.set(() => internals.state)` through the normal resolver. -/
def commitFold [Inhabited V] (w : World V) (forks : List (Nat × Internals V)) : World V :=
  forks.foldl
    (fun wa f =>
      if (wa.storeAt f.1).nocommit then wa
      else setOp wa f.1 (.fn (fun _ => f.2.state)))
    w

/-- `tx.commit` of `transaction.ts`: re-enter the parent's ambient scope
(`scope.act(parent, …)`, saving and restoring the pointer) and replay every
recorded fork's final state via plain `set`. -/
def commitOp [Inhabited V] (w : World V) (tid : Nat) : World V :=
  let saved := w.current
  let w1 := commitFold { w with current := (w.txAt tid).parent } (w.txAt tid).forks
  { w1 with current := saved }

/-- A transaction body, deep-embedded so that arbitrary synchronous client
code (store operations, nested `transaction` calls, a `throw`) can be
quantified over.  `throwE` carries an error code so propagation of the very
exception can be stated. -/
inductive Prog (V : Type) where
  | skip
  | seq (p q : Prog V)
  | setS (sid : Nat) (u : Updater V)
  | getS (sid : Nat)
  | subS (sid : Nat) (lid : Nat) (inh : Bool)
  | throwE (code : Nat)
  | txn (body : Prog V)

/-- Run a transaction body.  `Option Nat` is the exception channel: `some c`
means an exception with code `c` is unwinding.  The `txn` case is
`transaction(fn)` of `transaction.ts` (synchronous path): create a transaction
whose parent is the ambient one, run the body under `scope.act(tx, …)`
(pointer set for the body, restored on both exit paths), and commit exactly
when the body returned normally. -/
def run [Inhabited V] (w : World V) : Prog V → World V × Option Nat
  | .skip => (w, none)
  | .seq p q =>
    let r := run w p
    match r.2 with
    | some e => (r.1, some e)
    | none => run r.1 q
  | .setS sid u => (setOp w sid u, none)
  | .getS sid => ((getOp w sid).1, none)
  | .subS sid lid inh => (subscribeOp w sid lid inh, none)
  | .throwE c => (w, some c)
  | .txn body =>
    let c := createTransaction w w.current
    let r := run { c.1 with current := some c.2 } body
    match r.2 with
    | some e => ({ r.1 with current := c.1.current }, some e)
    | none => (commitOp { r.1 with current := c.1.current } c.2, none)

/-- `tx.act(fn)` (`scope.act(tx, fn)` of `utils.ts`): save the ambient pointer,
point it at the transaction for the body's dynamic extent, and restore it on
every exit path — normal return or exception (the `try`/`finally`). -/
def txActRun [Inhabited V] (w : World V) (tid : Nat) (p : Prog V) :
    World V × Option Nat :=
  let r := run { w with current := some tid } p
  ({ r.1 with current := w.current }, r.2)

/-- Convenience: the root state of store `sid`. -/
def World.rootState [Inhabited V] (w : World V) (sid : Nat) : V :=
  (w.storeAt sid).root.state

/-- Convenience: the root listener registry of store `sid`. -/
def World.rootListeners [Inhabited V] (w : World V) (sid : Nat) : List LEntry :=
  (w.storeAt sid).root.listeners

/-- No store of the world opts out of forking (the situation for every store
built by `create`; only `txConfig` can install the `nofork` symbol). -/
def noForkAll [Inhabited V] (w : World V) : Prop :=
  ∀ sid, (w.storeAt sid).nofork = false

/-- `SameOutside w w'` records the observations a bystander at an outer scope
can make after code ran strictly inside transactions: the stores (root states
and root listeners) are untouched, the ambient pointer is back where it was,
pre-existing transactions kept their parents, and every listener invocation
appended to the log fired from a fork, never from a root registry. -/
def SameOutside [Inhabited V] (w w' : World V) : Prop :=
  w'.stores = w.stores ∧ w'.current = w.current ∧ w.txs.length ≤ w'.txs.length ∧
  (∀ i, i < w.txs.length → (w'.txAt i).parent = (w.txAt i).parent) ∧
  ∃ evs, w'.log = w.log ++ evs ∧ evs.all Ev.isFork = true

/-! ### A model of the JavaScript values relevant to the equality policies

`create` defaults its equality policy to `Object.is`; `utils.ts` additionally
provides the structural comparator `shallow`.  Primitive values are modelled
by `JPrim` (with the not-a-number sentinel and the negative zero as their own
constructors, `int 0` playing the role of `+0`); `JVal` adds one level of
objects and arrays over primitives — enough for `shallow`, which only ever
compares one level deep.  Distinct `obj`/`arrV` terms model distinct object
references, which is how the claims' scenarios build their inputs. -/

inductive JPrim where
  | undef
  | jnull
  | boolV (b : Bool)
  | nan
  | negZero
  | int (n : Int)
  | str (s : String)
deriving DecidableEq, Repr

/-- `Object.is` on primitives (the SameValue algorithm): reflexive — the
not-a-number sentinel equals itself — while `+0` (`int 0`) and `-0`
(`negZero`) are distinct. -/
def sameValue : JPrim → JPrim → Bool
  | .undef, .undef => true
  | .jnull, .jnull => true
  | .boolV a, .boolV b => a == b
  | .nan, .nan => true
  | .negZero, .negZero => true
  | .int a, .int b => a == b
  | .str a, .str b => a == b
  | _, _ => false

inductive JVal where
  | prim (p : JPrim)
  | obj (fields : List (String × JPrim))
  | arrV (elems : List JPrim)
deriving DecidableEq, Repr

/-- `Object.is` lifted to `JVal`: primitives by SameValue; two object or array
terms model distinct heap references, hence are never `Object.is`-equal (the
scenarios under study never compare an object literal against itself). -/
def sameValueRef : JVal → JVal → Bool
  | .prim a, .prim b => sameValue a b
  | _, _ => false

/-- Field lookup in an object, `undefined` when absent (what `b[key]` yields
inside `shallow` for a missing key). -/
def objField (k : String) : List (String × JPrim) → JPrim
  | [] => .undef
  | (k2, v) :: rest => if k2 = k then v else objField k rest

/-- `shallow` of `utils.ts`: `Object.is` short-circuit; non-objects (including
`null`) fail; an array and a plain object fail; otherwise same key count and
per-key `Object.is` on the values (per-index for arrays). -/
def shallow (a b : JVal) : Bool :=
  if sameValueRef a b then true
  else
    match a, b with
    | .obj fa, .obj fb =>
      fa.length == fb.length && fa.all (fun kv => sameValue kv.2 (objField kv.1 fb))
    | .arrV ea, .arrV eb =>
      ea.length == eb.length && (ea.zip eb).all (fun p2 => sameValue p2.1 p2.2)
    | _, _ => false

/-- The nested-transaction scenario of the commit-semantics claim, built from
the source operations: create an outer transaction (parent = ambient), create
an inner transaction under it (`createTransaction(tx)`), and run
`store.set(x)` inside the inner transaction's `act`.  Returns the resulting
world together with the outer and inner transaction indices. -/
def nestedSetScenario [Inhabited V] (w : World V) (sid : Nat) (x : V) :
    World V × Nat × Nat :=
  let c1 := createTransaction w w.current
  let c2 := createTransaction c1.1 (some c1.2)
  ((txActRun c2.1 c2.2 (Prog.setS sid (Updater.val x))).1, c1.2, c2.2)

/-- The sibling-transaction scenario of the listener-inheritance claim, built
from the source operations: subscribe a (non-inheritable) listener to a store
inside one transaction's `act`; then, back at the outer scope, open a SIBLING
transaction and run `store.set(x)` inside it; also perform a plain root-scope
`store.set(x)` on the post-subscription world.  Returns both result worlds. -/
def siblingScenario [Inhabited V] (w : World V) (sid lid : Nat) (x : V) :
    World V × World V :=
  let c1 := createTransaction w w.current
  let w1 := (txActRun c1.1 c1.2 (Prog.subS sid lid false)).1
  let c2 := createTransaction w1 w1.current
  ((txActRun c2.1 c2.2 (Prog.setS sid (Updater.val x))).1,
   setOp w1 sid (Updater.val x))

/-- The world after subscribing `(lid, inheritable := false)` inside a fresh
transaction over `w` and returning to the root scope: the new transaction
holds a fork of `sid` whose registry is the inherited (inheritable-only)
listeners extended with `lid ↦ false`; stores, root registries and the log
are untouched. -/
def subWorld [Inhabited V] (w : World V) (sid lid : Nat) : World V :=
  ⟨w.stores, w.txs ++ [⟨none, [(sid, ⟨w.rootState sid, assocSet lid false ((w.rootListeners sid).filter (fun l => l.2))⟩)]⟩], none, w.log⟩

/-! ### Concrete worlds used by witnesses and counterexamples -/

/-- Boolean equality on naturals, standing in for `Object.is` on the simple
states the witness scenarios use. -/
def natEq : Nat → Nat → Bool := fun a b => a == b

/-- A one-store world: state `0`, a non-inheritable listener `9` and an
inheritable listener `7` registered at the root, no transaction yet. -/
def W1 : World Nat :=
  ⟨[⟨⟨0, [(9, false), (7, true)]⟩, 0, natEq, false, false⟩], [], none, []⟩

/-- Like `W1` but with only the inheritable root listener `7`. -/
def W2 : World Nat :=
  ⟨[⟨⟨0, [(7, true)]⟩, 0, natEq, false, false⟩], [], none, []⟩

/-- Like `W1` but with no root listeners at all. -/
def W3 : World Nat :=
  ⟨[⟨⟨0, []⟩, 0, natEq, false, false⟩], [], none, []⟩

/-- A world for the transaction-opt-out scenarios: store `0` is `txConfig`ed
with `fork: false` (the `nofork` symbol), store `1` with `commit: false`
(the `nocommit` symbol); one open transaction (index 0, parentless) holding a
fork of store `1` whose state has been written to `5`. -/
def W4 : World Nat :=
  ⟨[⟨⟨0, [(9, false)]⟩, 0, natEq, true, false⟩,
    ⟨⟨1, []⟩, 1, natEq, false, true⟩],
   [⟨none, [(1, ⟨5, []⟩)]⟩], none, []⟩

/-- A world with an open parentless transaction (index 0) holding a fork of
store `0` with recorded final state `5`: the shape left behind by
`tx.act(() => store.set(5))` on `W1`. -/
def W5 : World Nat :=
  ⟨[⟨⟨0, [(9, false), (7, true)]⟩, 0, natEq, false, false⟩],
   [⟨none, [(0, ⟨5, [(7, true)]⟩)]⟩], none, []⟩

/-- A three-transaction chain (2 ← 1 ← 0 by parent pointers... index 0 is the
outermost) where the outermost transaction already holds a fork of store `0`
with state `3` and listeners `[(7, true), (6, false)]`, and transactions 1
and 2 have no forks; the ambient pointer sits at the innermost (index 2). -/
def W6 : World Nat :=
  ⟨[⟨⟨0, [(9, false), (7, true)]⟩, 0, natEq, false, false⟩],
   [⟨none, [(0, ⟨3, [(7, true), (6, false)]⟩)]⟩, ⟨some 0, []⟩, ⟨some 1, []⟩],
   some 2, []⟩

/-- Like `W5`, but with the transaction ambient: the world as seen in the
middle of `tx.act`, with tx 0's fork for store 0 already created. -/
def W7 : World Nat :=
  ⟨[⟨⟨0, [(9, false), (7, true)]⟩, 0, natEq, false, false⟩],
   [⟨none, [(0, ⟨5, [(7, true)]⟩)]⟩], some 0, []⟩

/-! ### Association-list and list-update lemmas -/

theorem assocGet_assocSet_self (k : Nat) (v : α) :
    ∀ l : List (Nat × α), assocGet k (assocSet k v l) = some v
  | [] => by simp [assocGet, assocSet]
  | (k2, v2) :: rest => by
    by_cases h : k2 = k
    · simp [assocSet, assocGet, h]
    · simp [assocSet, assocGet, h, assocGet_assocSet_self k v rest]

theorem assocGet_assocSet_ne (h : k2 ≠ k) :
    ∀ l : List (Nat × α), assocGet k2 (assocSet k v l) = assocGet k2 l
  | [] => by simp [assocGet, assocSet, Ne.symm h]
  | (k3, v3) :: rest => by
    by_cases h3 : k3 = k
    · subst h3
      simp [assocSet, assocGet, Ne.symm h]
    · simp [assocSet, assocGet, h3, assocGet_assocSet_ne h rest]

theorem assocGet_assocModify_self (k : Nat) (f : α → α) :
    ∀ l : List (Nat × α), assocGet k (assocModify k f l) = (assocGet k l).map f
  | [] => by simp [assocGet, assocModify]
  | (k2, v2) :: rest => by
    by_cases h : k2 = k
    · simp [assocModify, assocGet, h]
    · simp [assocModify, assocGet, h, assocGet_assocModify_self k f rest]

theorem assocGet_assocModify_ne (h : k2 ≠ k) :
    ∀ l : List (Nat × α), assocGet k2 (assocModify k f l) = assocGet k2 l
  | [] => by simp [assocGet, assocModify]
  | (k3, v3) :: rest => by
    by_cases h3 : k3 = k
    · subst h3
      simp [assocModify, assocGet, Ne.symm h]
    · simp [assocModify, assocGet, h3, assocGet_assocModify_ne h rest]

theorem length_listModify [Inhabited α] (n : Nat) (f : α → α) (l : List α) :
    (listModify n f l).length = l.length := by
  simp [listModify]

theorem getD_listModify_self [Inhabited α] (f : α → α) (h : n < l.length) :
    (listModify n f l).getD n default = f (l.getD n default) := by
  simp [listModify, List.getD_eq_getElem?_getD, List.getElem?_set_self h]

theorem getD_listModify_ne [Inhabited α] (f : α → α) (l : List α) (h : i ≠ n) :
    (listModify n f l).getD i default = l.getD i default := by
  simp [listModify, List.getD_eq_getElem?_getD, List.getElem?_set_ne (Ne.symm h)]

theorem getD_append_length (l : List α) (a d : α) : (l ++ [a]).getD l.length d = a := by
  simp [List.getD_eq_getElem?_getD, List.getElem?_concat_length]

theorem getD_append_lt (l : List α) (a d : α) (h : i < l.length) :
    (l ++ [a]).getD i d = l.getD i d := by
  simp [List.getD_eq_getElem?_getD, List.getElem?_append_left h]

theorem listModify_concat [Inhabited α] (l : List α) (a : α) (f : α → α) :
    listModify l.length f (l ++ [a]) = l ++ [f a] := by
  simp [listModify, getD_append_length, List.set_append_right _ _ (Nat.le_refl l.length)]

theorem filterInherit_idem (l : List LEntry) :
    (l.filter (fun x => x.2)).filter (fun x => x.2) = l.filter (fun x => x.2) := by
  simp [List.filter_filter]

/-! ### Resolver basics -/

theorem getInternals_stores [Inhabited V] (w : World V) (sid : Nat) :
    (getInternals w sid).1.stores = w.stores := rfl

theorem getInternals_current [Inhabited V] (w : World V) (sid : Nat) :
    (getInternals w sid).1.current = w.current := rfl

theorem getInternals_log [Inhabited V] (w : World V) (sid : Nat) :
    (getInternals w sid).1.log = w.log := rfl

theorem upsertIn_noneTx [Inhabited V] (stores : List (StoreData V)) (sid fuel : Nat)
    (txs : List (TxData V)) : upsertIn stores sid fuel none txs = (txs, .root sid) := by
  cases fuel <;> rfl

theorem upsertIn_nofork [Inhabited V] (stores : List (StoreData V)) (sid fuel tid : Nat)
    (txs : List (TxData V)) (h : (stores.getD sid default).nofork = true) :
    upsertIn stores sid fuel (some tid) txs = (txs, .root sid) := by
  cases fuel with
  | zero => rfl
  | succ fuel =>
    simp only [upsertIn]
    rw [h]
    simp

theorem upsertIn_fork_loc [Inhabited V] (stores : List (StoreData V)) (sid fuel tid : Nat)
    (txs : List (TxData V)) (h : (stores.getD sid default).nofork = false) :
    (upsertIn stores sid (fuel + 1) (some tid) txs).2 = .fork tid sid := by
  simp only [upsertIn, h, Bool.false_eq_true, if_false]
  split <;> rfl

theorem upsertIn_found [Inhabited V] (stores : List (StoreData V)) (sid fuel tid : Nat)
    (txs : List (TxData V)) (hnf : (stores.getD sid default).nofork = false)
    (hsome : assocGet sid ((txs.getD tid default : TxData V)).forks = some f) :
    upsertIn stores sid (fuel + 1) (some tid) txs = (txs, .fork tid sid) := by
  simp only [upsertIn, hnf, Bool.false_eq_true, if_false, hsome]

theorem upsertIn_step_parentNone [Inhabited V] (stores : List (StoreData V)) (sid fuel tid : Nat)
    (txs : List (TxData V)) (hnf : (stores.getD sid default).nofork = false)
    (hempty : assocGet sid ((txs.getD tid default : TxData V)).forks = none)
    (hpar : ((txs.getD tid default : TxData V)).parent = none) :
    upsertIn stores sid (fuel + 1) (some tid) txs =
      (listModify tid (fun t => { t with forks := assocSet sid ⟨(stores.getD sid default).root.state, (stores.getD sid default).root.listeners.filter (fun l => l.2)⟩ t.forks }) txs,
       .fork tid sid) := by
  simp only [upsertIn, hnf, Bool.false_eq_true, if_false, hempty, hpar, readLocIn]

theorem upsertIn_step_parentSome [Inhabited V] (stores : List (StoreData V)) (sid fuel tid p : Nat)
    (txs : List (TxData V)) (hnf : (stores.getD sid default).nofork = false)
    (hempty : assocGet sid ((txs.getD tid default : TxData V)).forks = none)
    (hpar : ((txs.getD tid default : TxData V)).parent = some p) (hlt : p < tid) :
    upsertIn stores sid (fuel + 1) (some tid) txs =
      (listModify tid (fun t => { t with forks := assocSet sid ⟨(readLocIn stores (upsertIn stores sid fuel (some p) txs).1 (upsertIn stores sid fuel (some p) txs).2).state, (readLocIn stores (upsertIn stores sid fuel (some p) txs).1 (upsertIn stores sid fuel (some p) txs).2).listeners.filter (fun l => l.2)⟩ t.forks }) (upsertIn stores sid fuel (some p) txs).1,
       .fork tid sid) := by
  simp only [upsertIn, hnf, Bool.false_eq_true, if_false, hempty, hpar, hlt, if_true]

theorem upsertIn_step_guardFail [Inhabited V] (stores : List (StoreData V)) (sid fuel tid p : Nat)
    (txs : List (TxData V)) (hnf : (stores.getD sid default).nofork = false)
    (hempty : assocGet sid ((txs.getD tid default : TxData V)).forks = none)
    (hpar : ((txs.getD tid default : TxData V)).parent = some p) (hlt : ¬p < tid) :
    upsertIn stores sid (fuel + 1) (some tid) txs =
      (listModify tid (fun t => { t with forks := assocSet sid ⟨(stores.getD sid default).root.state, (stores.getD sid default).root.listeners.filter (fun l => l.2)⟩ t.forks }) txs,
       .fork tid sid) := by
  simp only [upsertIn, hnf, Bool.false_eq_true, if_false, hempty, hpar, hlt, readLocIn]

theorem upsertIn_found_eq [Inhabited V] (stores : List (StoreData V)) (sid fuel g tid : Nat)
    (txs : List (TxData V)) (hfg : fuel = g + 1)
    (hnf : (stores.getD sid default).nofork = false)
    (hsome : assocGet sid ((txs.getD tid default : TxData V)).forks = some f) :
    upsertIn stores sid fuel (some tid) txs = (txs, .fork tid sid) := by
  subst hfg
  exact upsertIn_found stores sid g tid txs hnf hsome

theorem upsertIn_step_parentSome_eq [Inhabited V] (stores : List (StoreData V))
    (sid fuel g tid p : Nat) (txs : List (TxData V)) (hfg : fuel = g + 1)
    (hnf : (stores.getD sid default).nofork = false)
    (hempty : assocGet sid ((txs.getD tid default : TxData V)).forks = none)
    (hpar : ((txs.getD tid default : TxData V)).parent = some p) (hlt : p < tid) :
    upsertIn stores sid fuel (some tid) txs =
      (listModify tid (fun t => { t with forks := assocSet sid ⟨(readLocIn stores (upsertIn stores sid g (some p) txs).1 (upsertIn stores sid g (some p) txs).2).state, (readLocIn stores (upsertIn stores sid g (some p) txs).1 (upsertIn stores sid g (some p) txs).2).listeners.filter (fun l => l.2)⟩ t.forks }) (upsertIn stores sid g (some p) txs).1,
       .fork tid sid) := by
  subst hfg
  exact upsertIn_step_parentSome stores sid g tid p txs hnf hempty hpar hlt

theorem writeStateAt_log [Inhabited V] (w : World V) (loc : Loc) (v : V) :
    (writeStateAt w loc v).log = w.log := by
  cases loc <;> rfl

theorem getInternals_noneTx [Inhabited V] (w : World V) (sid : Nat) (h : w.current = none) :
    getInternals w sid = (w, .root sid) := by
  obtain ⟨s, t, c, l⟩ := w
  simp only at h
  subst h
  simp only [getInternals, txFuel, upsertIn_noneTx]

/-! ### `set` behaviour at a resolved location -/

theorem setOp_eqTrue [Inhabited V] (w : World V) (sid : Nat) (u : Updater V)
    (h : (w.storeAt sid).eqFn (readLoc (getInternals w sid).1 (getInternals w sid).2).state
        (applyUpdater u (readLoc (getInternals w sid).1 (getInternals w sid).2).state) = true) :
    setOp w sid u = (getInternals w sid).1 := by
  simp only [setOp]
  rw [h]
  simp

theorem setOp_eqFalse [Inhabited V] (w : World V) (sid : Nat) (u : Updater V)
    (h : (w.storeAt sid).eqFn (readLoc (getInternals w sid).1 (getInternals w sid).2).state
        (applyUpdater u (readLoc (getInternals w sid).1 (getInternals w sid).2).state) = false) :
    setOp w sid u =
      { writeStateAt (getInternals w sid).1 (getInternals w sid).2
          (applyUpdater u (readLoc (getInternals w sid).1 (getInternals w sid).2).state) with
        log := (getInternals w sid).1.log ++
          (readLoc (getInternals w sid).1 (getInternals w sid).2).listeners.map
            (fun l => ⟨(getInternals w sid).2, l.1,
              applyUpdater u (readLoc (getInternals w sid).1 (getInternals w sid).2).state,
              (readLoc (getInternals w sid).1 (getInternals w sid).2).state⟩) } := by
  simp only [setOp]
  rw [h]
  simp only [Bool.false_eq_true, if_false, writeStateAt_log]

theorem setOp_resolvedRoot_eq [Inhabited V] (w : World V) (sid : Nat) (u : Updater V)
    (hres : getInternals w sid = (w, .root sid))
    (he : (w.storeAt sid).eqFn (w.rootState sid) (applyUpdater u (w.rootState sid)) = true) :
    setOp w sid u = w := by
  simp only [World.storeAt, World.rootState] at he
  simp only [setOp, hres, readLoc, readLocIn, World.storeAt]
  rw [he]
  simp

theorem setOp_resolvedRoot_ne [Inhabited V] (w : World V) (sid : Nat) (u : Updater V)
    (hres : getInternals w sid = (w, .root sid))
    (he : (w.storeAt sid).eqFn (w.rootState sid) (applyUpdater u (w.rootState sid)) = false) :
    setOp w sid u =
      { w with
        stores := listModify sid (fun s => { s with root := { s.root with state := applyUpdater u (w.rootState sid) } }) w.stores,
        log := w.log ++ (w.rootListeners sid).map (fun l => ⟨Loc.root sid, l.1, applyUpdater u (w.rootState sid), w.rootState sid⟩) } := by
  simp only [World.storeAt, World.rootState] at he
  simp only [setOp, hres, readLoc, readLocIn, World.storeAt,
    World.rootState, World.rootListeners]
  rw [he]
  simp [writeStateAt]

theorem setOp_root_eq [Inhabited V] (w : World V) (sid : Nat) (u : Updater V)
    (h : w.current = none)
    (he : (w.storeAt sid).eqFn (w.rootState sid) (applyUpdater u (w.rootState sid)) = true) :
    setOp w sid u = w :=
  setOp_resolvedRoot_eq w sid u (getInternals_noneTx w sid h) he

theorem setOp_root_ne [Inhabited V] (w : World V) (sid : Nat) (u : Updater V)
    (h : w.current = none)
    (he : (w.storeAt sid).eqFn (w.rootState sid) (applyUpdater u (w.rootState sid)) = false) :
    setOp w sid u =
      { w with
        stores := listModify sid (fun s => { s with root := { s.root with state := applyUpdater u (w.rootState sid) } }) w.stores,
        log := w.log ++ (w.rootListeners sid).map (fun l => ⟨Loc.root sid, l.1, applyUpdater u (w.rootState sid), w.rootState sid⟩) } :=
  setOp_resolvedRoot_ne w sid u (getInternals_noneTx w sid h) he

theorem getInternals_nofork [Inhabited V] (w : World V) (sid : Nat)
    (hnf : (w.storeAt sid).nofork = true) : getInternals w sid = (w, .root sid) := by
  obtain ⟨s, tl, c, l⟩ := w
  cases c with
  | none => exact getInternals_noneTx _ sid rfl
  | some t =>
    simp only [getInternals, txFuel]
    rw [upsertIn_nofork s sid (t + 1) t tl hnf]

/-! ### Everything that happens inside a transaction stays inside forks -/

theorem SameOutside.refl [Inhabited V] (w : World V) : SameOutside w w :=
  ⟨rfl, rfl, Nat.le_refl _, fun _ _ => rfl, [], by simp, rfl⟩

theorem SameOutside.trans [Inhabited V] {w1 w2 w3 : World V}
    (h12 : SameOutside w1 w2) (h23 : SameOutside w2 w3) : SameOutside w1 w3 := by
  obtain ⟨hs12, hc12, hl12, hp12, evs12, he12, hf12⟩ := h12
  obtain ⟨hs23, hc23, hl23, hp23, evs23, he23, hf23⟩ := h23
  refine ⟨hs23.trans hs12, hc23.trans hc12, hl12.trans hl23, ?_, evs12 ++ evs23, ?_, ?_⟩
  · intro i hi
    rw [hp23 i (Nat.lt_of_lt_of_le hi hl12), hp12 i hi]
  · rw [he23, he12, List.append_assoc]
  · simp only [List.all_append, hf12, hf23, Bool.and_self]

theorem getD_listModify_parent [Inhabited V] (n : Nat) (f : TxData V → TxData V)
    (hf : ∀ t, (f t).parent = t.parent) (l : List (TxData V)) (i : Nat) :
    ((listModify n f l).getD i default).parent = ((l.getD i default)).parent := by
  by_cases hi : i = n
  · subst hi
    by_cases hl : i < l.length
    · rw [getD_listModify_self f hl, hf]
    · rw [listModify, List.set_eq_of_length_le (Nat.le_of_not_lt hl)]
  · rw [getD_listModify_ne f l hi]

theorem upsertIn_length [Inhabited V] (stores : List (StoreData V)) (sid : Nat) :
    ∀ fuel otx txs, ((upsertIn stores sid fuel otx txs).1.length = txs.length)
  | fuel, none, txs => by rw [upsertIn_noneTx]
  | 0, some tid, txs => rfl
  | fuel + 1, some tid, txs => by
    simp only [upsertIn]
    cases hnf : (stores.getD sid default).nofork with
    | true => simp
    | false =>
      simp only [Bool.false_eq_true, if_false]
      cases hg : assocGet sid ((txs.getD tid default : TxData V)).forks with
      | some f => simp
      | none =>
        simp only
        cases hp : ((txs.getD tid default : TxData V)).parent with
        | none => simp [length_listModify]
        | some p =>
          by_cases hlt : p < tid
          · simp [hlt, length_listModify, upsertIn_length stores sid fuel (some p) txs]
          · simp [hlt, length_listModify]

theorem upsertIn_parents [Inhabited V] (stores : List (StoreData V)) (sid : Nat) :
    ∀ fuel otx txs i,
      (((upsertIn stores sid fuel otx txs).1.getD i default : TxData V)).parent =
        ((txs.getD i default : TxData V)).parent
  | fuel, none, txs, i => by rw [upsertIn_noneTx]
  | 0, some tid, txs, i => rfl
  | fuel + 1, some tid, txs, i => by
    simp only [upsertIn]
    cases hnf : (stores.getD sid default).nofork with
    | true => simp
    | false =>
      simp only [Bool.false_eq_true, if_false]
      cases hg : assocGet sid ((txs.getD tid default : TxData V)).forks with
      | some f => simp
      | none =>
        simp only
        cases hp : ((txs.getD tid default : TxData V)).parent with
        | none =>
          refine getD_listModify_parent tid _ ?_ txs i
          intro t2
          rfl
        | some p =>
          by_cases hlt : p < tid
          · simp only [hlt, if_true]
            refine Eq.trans (getD_listModify_parent tid _ ?_ _ i)
              (upsertIn_parents stores sid fuel (some p) txs i)
            intro t2
            rfl
          · simp only [hlt, if_false]
            refine getD_listModify_parent tid _ ?_ txs i
            intro t2
            rfl

theorem noForkAll_of_stores_eq [Inhabited V] {w w' : World V}
    (h : w'.stores = w.stores) (hn : noForkAll w) : noForkAll w' := by
  intro sid
  unfold World.storeAt
  rw [h]
  exact hn sid

theorem getInternals_sameOutside [Inhabited V] (w : World V) (sid : Nat) :
    SameOutside w (getInternals w sid).1 := by
  refine ⟨rfl, rfl, ?_, ?_, [], by rw [List.append_nil]; rfl, rfl⟩
  · simp only [getInternals]
    rw [upsertIn_length]
  · intro i hi
    simp only [getInternals, World.txAt]
    rw [upsertIn_parents]

theorem getInternals_fork_loc [Inhabited V] (w : World V) (sid t : Nat)
    (ht : w.current = some t) (hnf : (w.storeAt sid).nofork = false) :
    (getInternals w sid).2 = .fork t sid := by
  simp only [getInternals, ht, txFuel]
  exact upsertIn_fork_loc w.stores sid t t w.txs hnf

theorem setOp_sameOutside [Inhabited V] (w : World V) (sid : Nat) (u : Updater V) (t : Nat)
    (ht : w.current = some t) (hnf : (w.storeAt sid).nofork = false) :
    SameOutside w (setOp w sid u) := by
  have hloc := getInternals_fork_loc w sid t ht hnf
  simp only [setOp, hloc]
  split
  · exact getInternals_sameOutside w sid
  · refine SameOutside.trans (getInternals_sameOutside w sid) ?_
    set w1 := (getInternals w sid).1 with hw1
    refine ⟨rfl, rfl, ?_, ?_, ?_⟩
    · simp [writeStateAt, length_listModify]
    · intro i hi
      simp only [writeStateAt, World.txAt]
      refine getD_listModify_parent t _ ?_ _ i
      intro t2
      rfl
    · refine ⟨_, rfl, ?_⟩
      simp [Ev.isFork]

theorem subscribeOp_sameOutside [Inhabited V] (w : World V) (sid lid : Nat) (inh : Bool)
    (t : Nat) (ht : w.current = some t) (hnf : (w.storeAt sid).nofork = false) :
    SameOutside w (subscribeOp w sid lid inh) := by
  have hloc := getInternals_fork_loc w sid t ht hnf
  simp only [subscribeOp, hloc]
  refine SameOutside.trans (getInternals_sameOutside w sid) ?_
  refine ⟨rfl, rfl, ?_, ?_, [], by simp [writeListenersAt], rfl⟩
  · simp [writeListenersAt, length_listModify]
  · intro i hi
    simp only [writeListenersAt, World.txAt]
    refine getD_listModify_parent t _ ?_ _ i
    intro t2
    rfl

theorem commitFold_sameOutside [Inhabited V] :
    ∀ (forks : List (Nat × Internals V)) (w : World V) (t : Nat),
      w.current = some t → noForkAll w → SameOutside w (commitFold w forks)
  | [], w, t, ht, hn => SameOutside.refl w
  | f :: rest, w, t, ht, hn => by
    simp only [commitFold, List.foldl_cons]
    by_cases hc : (w.storeAt f.1).nocommit
    · rw [if_pos hc]
      exact commitFold_sameOutside rest w t ht hn
    · rw [if_neg hc]
      have h1 : SameOutside w (setOp w f.1 (.fn (fun _ => f.2.state))) :=
        setOp_sameOutside w f.1 _ t ht (hn f.1)
      refine SameOutside.trans h1 (commitFold_sameOutside rest _ t ?_ ?_)
      · rw [h1.2.1, ht]
      · exact noForkAll_of_stores_eq h1.1 hn

theorem commitOp_sameOutside [Inhabited V] (w : World V) (tid t : Nat)
    (hp : (w.txAt tid).parent = some t) (hn : noForkAll w) :
    SameOutside w (commitOp w tid) := by
  simp only [commitOp, hp]
  have h1 : SameOutside { w with current := some t } (commitFold { w with current := some t } (w.txAt tid).forks) :=
    commitFold_sameOutside _ _ t rfl (fun sid => hn sid)
  obtain ⟨hs, hc, hl, hpar, evs, he, hf⟩ := h1
  exact ⟨hs, rfl, hl, hpar, evs, he, hf⟩

theorem run_sameOutside [Inhabited V] :
    ∀ (p : Prog V) (w : World V) (t : Nat),
      w.current = some t → noForkAll w → SameOutside w (run w p).1
  | .skip, w, t, ht, hn => by
    simp only [run]
    exact SameOutside.refl w
  | .seq p q, w, t, ht, hn => by
    simp only [run]
    have h1 := run_sameOutside p w t ht hn
    cases hr : (run w p).2 with
    | some e => simpa [hr] using h1
    | none =>
      simp only [hr]
      refine SameOutside.trans h1 (run_sameOutside q (run w p).1 t ?_ ?_)
      · rw [h1.2.1, ht]
      · exact noForkAll_of_stores_eq h1.1 hn
  | .setS sid u, w, t, ht, hn => by
    simp only [run]
    exact setOp_sameOutside w sid u t ht (hn sid)
  | .getS sid, w, t, ht, hn => by
    simp only [run]
    exact getInternals_sameOutside w sid
  | .subS sid lid inh, w, t, ht, hn => by
    simp only [run]
    exact subscribeOp_sameOutside w sid lid inh t ht (hn sid)
  | .throwE c, w, t, ht, hn => by
    simp only [run]
    exact SameOutside.refl w
  | .txn body, w, t, ht, hn => by
    simp only [run, createTransaction]
    set w1 : World V := { w with txs := w.txs ++ [⟨w.current, []⟩], current := some w.txs.length } with hw1def
    have hw1 : ({ w with txs := w.txs ++ [⟨w.current, []⟩] } : World V).current = w.current := rfl
    have hbody : SameOutside w1 (run w1 body).1 :=
      run_sameOutside body w1 w.txs.length rfl (fun sid => hn sid)
    have hmid : SameOutside w { (run w1 body).1 with current := w.current } := by
      obtain ⟨hs, hc, hl, hpar, evs, he, hf⟩ := hbody
      refine ⟨hs, rfl, Nat.le_trans (by simp) hl, ?_, evs, he, hf⟩
      intro i hi
      have h2 := hpar i (by simp; omega)
      simp only [World.txAt] at h2 ⊢
      rw [h2, getD_append_lt _ _ _ hi]
    cases hr : (run w1 body).2 with
    | some e => simpa [hr] using hmid
    | none =>
      simp only [hr]
      refine SameOutside.trans hmid (commitOp_sameOutside _ w.txs.length t ?_ ?_)
      · have h2 := hbody.2.2.2.1 w.txs.length (by simp)
        simp only [World.txAt] at h2 ⊢
        rw [h2, getD_append_length]
        exact ht
      · exact noForkAll_of_stores_eq hmid.1 hn

/-! ### Stability of the resolver -/

theorem getInternals_found [Inhabited V] (w : World V) (sid t : Nat) (f : Internals V)
    (ht : w.current = some t) (hnf : (w.storeAt sid).nofork = false)
    (hf : assocGet sid (w.txAt t).forks = some f) :
    getInternals w sid = (w, .fork t sid) := by
  obtain ⟨s, tl, c, l⟩ := w
  simp only at ht
  subst ht
  simp only [getInternals, txFuel]
  rw [upsertIn_found s sid t t tl hnf hf]

theorem getInternals_registers [Inhabited V] (w : World V) (sid t : Nat)
    (ht : w.current = some t) (hnf : (w.storeAt sid).nofork = false)
    (hlen : t < w.txs.length) :
    ∃ f2, assocGet sid ((getInternals w sid).1.txAt t).forks = some f2 := by
  cases hf : assocGet sid (w.txAt t).forks with
  | some f =>
    refine ⟨f, ?_⟩
    rw [getInternals_found w sid t f ht hnf hf]
    exact hf
  | none =>
    simp only [getInternals, ht, txFuel, World.txAt]
    cases hp : ((w.txAt t)).parent with
    | none =>
      rw [upsertIn_step_parentNone w.stores sid t t w.txs hnf hf hp]
      refine ⟨⟨(w.stores.getD sid default).root.state, (w.stores.getD sid default).root.listeners.filter (fun l => l.2)⟩, ?_⟩
      rw [getD_listModify_self _ hlen, assocGet_assocSet_self]
    | some p =>
      by_cases hlt : p < t
      · rw [upsertIn_step_parentSome w.stores sid t t p w.txs hnf hf hp hlt]
        refine ⟨⟨(readLocIn w.stores (upsertIn w.stores sid t (some p) w.txs).1 (upsertIn w.stores sid t (some p) w.txs).2).state, (readLocIn w.stores (upsertIn w.stores sid t (some p) w.txs).1 (upsertIn w.stores sid t (some p) w.txs).2).listeners.filter (fun l => l.2)⟩, ?_⟩
        have hlen2 : t < (upsertIn w.stores sid t (some p) w.txs).1.length := by
          rw [upsertIn_length]
          exact hlen
        rw [getD_listModify_self _ hlen2, assocGet_assocSet_self]
      · rw [upsertIn_step_guardFail w.stores sid t t p w.txs hnf hf hp hlt]
        refine ⟨⟨(w.stores.getD sid default).root.state, (w.stores.getD sid default).root.listeners.filter (fun l => l.2)⟩, ?_⟩
        rw [getD_listModify_self _ hlen, assocGet_assocSet_self]

theorem getInternals_stable [Inhabited V] (w : World V) (sid : Nat)
    (hv : ∀ t2, w.current = some t2 → t2 < w.txs.length) :
    getInternals (getInternals w sid).1 sid = getInternals w sid := by
  cases hc : w.current with
  | none =>
    have h0 := getInternals_noneTx w sid hc
    rw [h0]
    exact h0
  | some t =>
    cases hnf : (w.storeAt sid).nofork with
    | true =>
      have h0 := getInternals_nofork w sid hnf
      simp only [h0]
    | false =>
      have hl2 : (getInternals w sid).2 = .fork t sid := getInternals_fork_loc w sid t hc hnf
      have hc2 : (getInternals w sid).1.current = some t := by
        rw [getInternals_current]
        exact hc
      have hnf2 : ((getInternals w sid).1.storeAt sid).nofork = false := by
        unfold World.storeAt
        rw [getInternals_stores]
        exact hnf
      obtain ⟨f2, hf2⟩ := getInternals_registers w sid t hc hnf (hv t hc)
      have h3 := getInternals_found (getInternals w sid).1 sid t f2 hc2 hnf2 hf2
      rw [h3, ← hl2]

/-! ### Setting a store inside a freshly created, parentless transaction -/

theorem getInternals_freshTx [Inhabited V] (w : World V) (sid : Nat)
    (hnf : (w.storeAt sid).nofork = false) :
    getInternals { w with txs := w.txs ++ [⟨none, []⟩], current := some w.txs.length } sid =
      ({ w with
          txs := w.txs ++ [⟨none, [(sid, ⟨w.rootState sid, (w.rootListeners sid).filter (fun l => l.2)⟩)]⟩],
          current := some w.txs.length },
       Loc.fork w.txs.length sid) := by
  have hemp : assocGet sid (((w.txs ++ [(⟨none, []⟩ : TxData V)]).getD w.txs.length default)).forks = none := by
    rw [getD_append_length]
    rfl
  have hpar : (((w.txs ++ [(⟨none, []⟩ : TxData V)]).getD w.txs.length default)).parent = none := by
    rw [getD_append_length]
  have hstep := upsertIn_step_parentNone w.stores sid w.txs.length w.txs.length
    (w.txs ++ [(⟨none, []⟩ : TxData V)]) hnf hemp hpar
  simp only [getInternals, txFuel]
  rw [hstep, listModify_concat]
  rfl

theorem setOp_freshTx [Inhabited V] (w : World V) (sid : Nat) (u : Updater V)
    (hnf : (w.storeAt sid).nofork = false)
    (he : (w.storeAt sid).eqFn (w.rootState sid) (applyUpdater u (w.rootState sid)) = false) :
    setOp { w with txs := w.txs ++ [⟨none, []⟩], current := some w.txs.length } sid u =
      { stores := w.stores,
        txs := w.txs ++ [⟨none, [(sid, ⟨applyUpdater u (w.rootState sid), (w.rootListeners sid).filter (fun l => l.2)⟩)]⟩],
        current := some w.txs.length,
        log := w.log ++ ((w.rootListeners sid).filter (fun l => l.2)).map (fun l => ⟨Loc.fork w.txs.length sid, l.1, applyUpdater u (w.rootState sid), w.rootState sid⟩) } := by
  have hg := getInternals_freshTx w sid hnf
  have hread : readLoc (getInternals { w with txs := w.txs ++ [⟨none, []⟩], current := some w.txs.length } sid).1
      (getInternals { w with txs := w.txs ++ [⟨none, []⟩], current := some w.txs.length } sid).2 =
      ⟨w.rootState sid, (w.rootListeners sid).filter (fun l => l.2)⟩ := by
    rw [hg]
    simp only [readLoc, readLocIn]
    rw [getD_append_length]
    simp [assocGet]
  have hcond : (({ w with txs := w.txs ++ [⟨none, []⟩], current := some w.txs.length } : World V).storeAt sid).eqFn
      (readLoc (getInternals { w with txs := w.txs ++ [⟨none, []⟩], current := some w.txs.length } sid).1
        (getInternals { w with txs := w.txs ++ [⟨none, []⟩], current := some w.txs.length } sid).2).state
      (applyUpdater u (readLoc (getInternals { w with txs := w.txs ++ [⟨none, []⟩], current := some w.txs.length } sid).1
        (getInternals { w with txs := w.txs ++ [⟨none, []⟩], current := some w.txs.length } sid).2).state) = false := by
    rw [hread]
    exact he
  rw [setOp_eqFalse _ sid u hcond, hread, hg]
  simp only [writeStateAt]
  rw [listModify_concat]
  simp only [assocModify]
  simp

theorem getD_listModify_rootState [Inhabited V] (st : List (StoreData V)) (n : Nat) (v : V)
    (f : StoreData V → StoreData V) (hlen : n < st.length)
    (hf : ∀ s2, ((f s2)).root.state = v) :
    ((listModify n f st).getD n default).root.state = v := by
  rw [getD_listModify_self f hlen, hf]

theorem getOp_noneTx [Inhabited V] (w : World V) (sid : Nat) (h : w.current = none) :
    (getOp w sid).2 = w.rootState sid := by
  simp only [getOp, getInternals_noneTx w sid h, readLoc, readLocIn, World.rootState,
    World.storeAt]

/-- Committing a parentless transaction whose fork map holds exactly one
entry, from the root scope, with a final state the equality policy rejects:
the root state becomes the fork's state and the root listeners fire. -/
theorem commitOp_single [Inhabited V] (w : World V) (tid sid : Nat) (f : Internals V)
    (hc : w.current = none) (htx : w.txAt tid = ⟨none, [(sid, f)]⟩)
    (hnc : (w.storeAt sid).nocommit = false)
    (hne : (w.storeAt sid).eqFn (w.rootState sid) f.state = false) :
    commitOp w tid =
      { w with
        stores := listModify sid (fun s => { s with root := { s.root with state := f.state } }) w.stores,
        log := w.log ++ (w.rootListeners sid).map (fun l => ⟨Loc.root sid, l.1, f.state, w.rootState sid⟩) } := by
  obtain ⟨s, tl, c, l⟩ := w
  simp only at hc
  subst hc
  simp only [commitOp, htx, commitFold, List.foldl_cons, List.foldl_nil]
  rw [hnc]
  simp only [Bool.false_eq_true, if_false]
  rw [setOp_root_ne (World.mk s tl none l) sid (Updater.fn (fun _ => f.state)) rfl hne]
  rfl

theorem subscribeOp_freshTx [Inhabited V] (w : World V) (sid lid : Nat) (inh : Bool)
    (hnf : (w.storeAt sid).nofork = false) :
    subscribeOp { w with txs := w.txs ++ [⟨none, []⟩], current := some w.txs.length } sid lid inh =
      { stores := w.stores,
        txs := w.txs ++ [⟨none, [(sid, ⟨w.rootState sid, assocSet lid inh ((w.rootListeners sid).filter (fun l => l.2))⟩)]⟩],
        current := some w.txs.length, log := w.log } := by
  have hg := getInternals_freshTx w sid hnf
  have hread : readLoc (getInternals { w with txs := w.txs ++ [⟨none, []⟩], current := some w.txs.length } sid).1
      (getInternals { w with txs := w.txs ++ [⟨none, []⟩], current := some w.txs.length } sid).2 =
      ⟨w.rootState sid, (w.rootListeners sid).filter (fun l => l.2)⟩ := by
    rw [hg]
    simp only [readLoc, readLocIn]
    rw [getD_append_length]
    simp [assocGet]
  simp only [subscribeOp]
  rw [hread, hg]
  simp only [writeListenersAt]
  rw [listModify_concat]
  simp [assocModify]

/-! ### The claims -/

/-- C1: snapshot isolation — starting at the root scope, create a transaction
and run `C.set(x)` inside its `act`; a `C.get()` performed outside afterwards
still returns the pre-transaction state, and only after `commit()` does it
return `x` (assuming `x` differs from the pre-transaction state under the
store's equality policy; the store is a plain `create` store, i.e. carries
neither `txConfig` opt-out symbol). -/
theorem c1_snapshot_isolation [Inhabited V] (w : World V) (sid : Nat) (x : V)
    (hc : w.current = none) (hlen : sid < w.stores.length)
    (hnf : (w.storeAt sid).nofork = false) (hnc : (w.storeAt sid).nocommit = false)
    (hne : (w.storeAt sid).eqFn (w.rootState sid) x = false) :
    (getOp (txActRun (createTransaction w w.current).1 (createTransaction w w.current).2 (Prog.setS sid (Updater.val x))).1 sid).2 = (getOp w sid).2 ∧
    (getOp (commitOp (txActRun (createTransaction w w.current).1 (createTransaction w w.current).2 (Prog.setS sid (Updater.val x))).1 (createTransaction w w.current).2) sid).2 = x := by
  rw [hc]
  have e1 : (txActRun (createTransaction w none).1 (createTransaction w none).2 (Prog.setS sid (Updater.val x))).1
      = { (setOp { w with txs := w.txs ++ [⟨none, []⟩], current := some w.txs.length } sid (Updater.val x)) with current := w.current } := rfl
  rw [hc] at e1
  rw [setOp_freshTx w sid (Updater.val x) hnf hne] at e1
  have e2 : (createTransaction w (none : Option Nat)).2 = w.txs.length := rfl
  constructor
  · rw [e1, getOp_noneTx _ sid rfl, getOp_noneTx w sid hc]
    rfl
  · rw [e1, e2]
    show (getOp (commitOp (⟨w.stores, w.txs ++ [⟨none, [(sid, ⟨applyUpdater (Updater.val x) (w.rootState sid), (w.rootListeners sid).filter (fun l => l.2)⟩)]⟩], none, w.log ++ ((w.rootListeners sid).filter (fun l => l.2)).map (fun l => ⟨Loc.fork w.txs.length sid, l.1, applyUpdater (Updater.val x) (w.rootState sid), w.rootState sid⟩)⟩ : World V) w.txs.length) sid).2 = x
    have htx2 : ((⟨w.stores, w.txs ++ [⟨none, [(sid, ⟨applyUpdater (Updater.val x) (w.rootState sid), (w.rootListeners sid).filter (fun l => l.2)⟩)]⟩], none, w.log ++ ((w.rootListeners sid).filter (fun l => l.2)).map (fun l => ⟨Loc.fork w.txs.length sid, l.1, applyUpdater (Updater.val x) (w.rootState sid), w.rootState sid⟩)⟩ : World V)).txAt w.txs.length = ⟨none, [(sid, ⟨applyUpdater (Updater.val x) (w.rootState sid), (w.rootListeners sid).filter (fun l => l.2)⟩)]⟩ := by
      unfold World.txAt
      exact getD_append_length _ _ _
    have hcommit := commitOp_single (⟨w.stores, w.txs ++ [⟨none, [(sid, ⟨applyUpdater (Updater.val x) (w.rootState sid), (w.rootListeners sid).filter (fun l => l.2)⟩)]⟩], none, w.log ++ ((w.rootListeners sid).filter (fun l => l.2)).map (fun l => ⟨Loc.fork w.txs.length sid, l.1, applyUpdater (Updater.val x) (w.rootState sid), w.rootState sid⟩)⟩ : World V) w.txs.length sid ⟨applyUpdater (Updater.val x) (w.rootState sid), (w.rootListeners sid).filter (fun l => l.2)⟩ rfl htx2 hnc hne
    rw [hcommit, getOp_noneTx _ sid rfl]
    unfold World.rootState World.storeAt
    rw [getD_listModify_self _ hlen]
    rfl

/-- C2: commit semantics — in the nested scenario (outer transaction, inner
transaction under it, `store.set(x)` inside the inner `act`), the inner
transaction's `commit()` performs a plain `set` of its fork's final state
through the normal resolver after re-entering the parent's ambient scope: the
write lands in the OUTER transaction's fork (which now holds `x`), while the
root state is untouched — one scope level outward, never further; only after
the outer transaction also commits does the root read `x`. -/
theorem c2_commit_one_level [Inhabited V] (w : World V) (sid : Nat) (x : V)
    (hc : w.current = none) (htxs : w.txs = []) (hlen : sid < w.stores.length)
    (hnf : (w.storeAt sid).nofork = false) (hnc : (w.storeAt sid).nocommit = false)
    (hne : (w.storeAt sid).eqFn (w.rootState sid) x = false) :
    (getOp (commitOp (nestedSetScenario w sid x).1 (nestedSetScenario w sid x).2.2) sid).2 = (getOp w sid).2 ∧
    assocGet sid ((commitOp (nestedSetScenario w sid x).1 (nestedSetScenario w sid x).2.2).txAt (nestedSetScenario w sid x).2.1).forks = some ⟨x, (w.rootListeners sid).filter (fun l2 => l2.2)⟩ ∧
    (getOp (commitOp (commitOp (nestedSetScenario w sid x).1 (nestedSetScenario w sid x).2.2) (nestedSetScenario w sid x).2.1) sid).2 = x := by
  obtain ⟨s, tl, c, l⟩ := w
  simp only at hc htxs
  subst hc
  subst htxs
  have h1 : upsertIn s sid 1 (some 0) [(⟨none, []⟩ : TxData V), ⟨some 0, []⟩] =
      ([⟨none, [(sid, ⟨(s.getD sid default).root.state, (s.getD sid default).root.listeners.filter (fun l2 => l2.2)⟩)]⟩, ⟨some 0, []⟩], .fork 0 sid) := by
    rw [upsertIn_step_parentNone s sid 0 0 [(⟨none, []⟩ : TxData V), ⟨some 0, []⟩] hnf rfl rfl]
    simp [listModify, assocSet]
  have h2 : upsertIn s sid 2 (some 1) [(⟨none, []⟩ : TxData V), ⟨some 0, []⟩] =
      ([⟨none, [(sid, ⟨(s.getD sid default).root.state, (s.getD sid default).root.listeners.filter (fun l2 => l2.2)⟩)]⟩,
        ⟨some 0, [(sid, ⟨(s.getD sid default).root.state, ((s.getD sid default).root.listeners.filter (fun l2 => l2.2)).filter (fun l2 => l2.2)⟩)]⟩], .fork 1 sid) := by
    rw [upsertIn_step_parentSome s sid 1 1 0 [(⟨none, []⟩ : TxData V), ⟨some 0, []⟩] hnf rfl rfl (by decide), h1]
    simp [listModify, assocSet, readLocIn, assocGet]
  have hg : getInternals (⟨s, [⟨none, []⟩, ⟨some 0, []⟩], some 1, l⟩ : World V) sid =
      ((⟨s, [⟨none, [(sid, ⟨(s.getD sid default).root.state, (s.getD sid default).root.listeners.filter (fun l2 => l2.2)⟩)]⟩,
          ⟨some 0, [(sid, ⟨(s.getD sid default).root.state, ((s.getD sid default).root.listeners.filter (fun l2 => l2.2)).filter (fun l2 => l2.2)⟩)]⟩], some 1, l⟩ : World V),
       Loc.fork 1 sid) := by
    simp only [getInternals, txFuel]
    rw [h2]
  have hread : readLoc (getInternals (⟨s, [⟨none, []⟩, ⟨some 0, []⟩], some 1, l⟩ : World V) sid).1 (getInternals (⟨s, [⟨none, []⟩, ⟨some 0, []⟩], some 1, l⟩ : World V) sid).2 =
      ⟨(s.getD sid default).root.state, ((s.getD sid default).root.listeners.filter (fun l2 => l2.2)).filter (fun l2 => l2.2)⟩ := by
    rw [hg]
    simp [readLoc, readLocIn, assocGet]
  have hcond : (((⟨s, [⟨none, []⟩, ⟨some 0, []⟩], some 1, l⟩ : World V)).storeAt sid).eqFn
      (readLoc (getInternals (⟨s, [⟨none, []⟩, ⟨some 0, []⟩], some 1, l⟩ : World V) sid).1 (getInternals (⟨s, [⟨none, []⟩, ⟨some 0, []⟩], some 1, l⟩ : World V) sid).2).state
      (applyUpdater (Updater.val x) (readLoc (getInternals (⟨s, [⟨none, []⟩, ⟨some 0, []⟩], some 1, l⟩ : World V) sid).1 (getInternals (⟨s, [⟨none, []⟩, ⟨some 0, []⟩], some 1, l⟩ : World V) sid).2).state) = false := by
    rw [hread]
    exact hne
  have hset := setOp_eqFalse (⟨s, [⟨none, []⟩, ⟨some 0, []⟩], some 1, l⟩ : World V) sid (Updater.val x) hcond
  rw [hread, hg] at hset
  have hset2 : setOp (⟨s, [⟨none, []⟩, ⟨some 0, []⟩], some 1, l⟩ : World V) sid (Updater.val x) =
      (⟨s, [⟨none, [(sid, ⟨(s.getD sid default).root.state, (s.getD sid default).root.listeners.filter (fun l2 => l2.2)⟩)]⟩,
          ⟨some 0, [(sid, ⟨x, ((s.getD sid default).root.listeners.filter (fun l2 => l2.2)).filter (fun l2 => l2.2)⟩)]⟩], some 1,
        l ++ (((s.getD sid default).root.listeners.filter (fun l2 => l2.2)).filter (fun l2 => l2.2)).map (fun l2 => ⟨Loc.fork 1 sid, l2.1, x, (s.getD sid default).root.state⟩)⟩ : World V) := by
    rw [hset]
    simp [writeStateAt, listModify, assocModify, applyUpdater]
  have e1 : (nestedSetScenario (⟨s, [], none, l⟩ : World V) sid x).1 =
      (⟨s, [⟨none, [(sid, ⟨(s.getD sid default).root.state, (s.getD sid default).root.listeners.filter (fun l2 => l2.2)⟩)]⟩,
          ⟨some 0, [(sid, ⟨x, ((s.getD sid default).root.listeners.filter (fun l2 => l2.2)).filter (fun l2 => l2.2)⟩)]⟩], none,
        l ++ (((s.getD sid default).root.listeners.filter (fun l2 => l2.2)).filter (fun l2 => l2.2)).map (fun l2 => ⟨Loc.fork 1 sid, l2.1, x, (s.getD sid default).root.state⟩)⟩ : World V) := by
    show { (setOp (⟨s, [⟨none, []⟩, ⟨some 0, []⟩], some 1, l⟩ : World V) sid (Updater.val x)) with current := (none : Option Nat) } = _
    rw [hset2]
  have e2 : (nestedSetScenario (⟨s, [], none, l⟩ : World V) sid x).2.1 = 0 := rfl
  have e3 : (nestedSetScenario (⟨s, [], none, l⟩ : World V) sid x).2.2 = 1 := rfl
  rw [e1, e2, e3]
  have hnc2 : (s.getD sid default).nocommit = false := hnc
  have hgin := getInternals_found (⟨s, [⟨none, [(sid, ⟨(s.getD sid default).root.state, (s.getD sid default).root.listeners.filter (fun l2 => l2.2)⟩)]⟩,
      ⟨some 0, [(sid, ⟨x, ((s.getD sid default).root.listeners.filter (fun l2 => l2.2)).filter (fun l2 => l2.2)⟩)]⟩], some 0,
    l ++ (((s.getD sid default).root.listeners.filter (fun l2 => l2.2)).filter (fun l2 => l2.2)).map (fun l2 => ⟨Loc.fork 1 sid, l2.1, x, (s.getD sid default).root.state⟩)⟩ : World V) sid 0
    ⟨(s.getD sid default).root.state, (s.getD sid default).root.listeners.filter (fun l2 => l2.2)⟩ rfl hnf (by simp [World.txAt, assocGet])
  have hreadin : readLoc (getInternals (⟨s, [⟨none, [(sid, ⟨(s.getD sid default).root.state, (s.getD sid default).root.listeners.filter (fun l2 => l2.2)⟩)]⟩,
      ⟨some 0, [(sid, ⟨x, ((s.getD sid default).root.listeners.filter (fun l2 => l2.2)).filter (fun l2 => l2.2)⟩)]⟩], some 0,
    l ++ (((s.getD sid default).root.listeners.filter (fun l2 => l2.2)).filter (fun l2 => l2.2)).map (fun l2 => ⟨Loc.fork 1 sid, l2.1, x, (s.getD sid default).root.state⟩)⟩ : World V) sid).1
      (getInternals (⟨s, [⟨none, [(sid, ⟨(s.getD sid default).root.state, (s.getD sid default).root.listeners.filter (fun l2 => l2.2)⟩)]⟩,
      ⟨some 0, [(sid, ⟨x, ((s.getD sid default).root.listeners.filter (fun l2 => l2.2)).filter (fun l2 => l2.2)⟩)]⟩], some 0,
    l ++ (((s.getD sid default).root.listeners.filter (fun l2 => l2.2)).filter (fun l2 => l2.2)).map (fun l2 => ⟨Loc.fork 1 sid, l2.1, x, (s.getD sid default).root.state⟩)⟩ : World V) sid).2 =
      ⟨(s.getD sid default).root.state, (s.getD sid default).root.listeners.filter (fun l2 => l2.2)⟩ := by
    rw [hgin]
    simp [readLoc, readLocIn, assocGet]
  have hcondin := hne
  have hsetin := setOp_eqFalse (⟨s, [⟨none, [(sid, ⟨(s.getD sid default).root.state, (s.getD sid default).root.listeners.filter (fun l2 => l2.2)⟩)]⟩,
      ⟨some 0, [(sid, ⟨x, ((s.getD sid default).root.listeners.filter (fun l2 => l2.2)).filter (fun l2 => l2.2)⟩)]⟩], some 0,
    l ++ (((s.getD sid default).root.listeners.filter (fun l2 => l2.2)).filter (fun l2 => l2.2)).map (fun l2 => ⟨Loc.fork 1 sid, l2.1, x, (s.getD sid default).root.state⟩)⟩ : World V) sid (Updater.fn (fun _ => x))
    (by rw [hreadin]; exact hne)
  rw [hreadin, hgin] at hsetin
  have hsetin2 : setOp (⟨s, [⟨none, [(sid, ⟨(s.getD sid default).root.state, (s.getD sid default).root.listeners.filter (fun l2 => l2.2)⟩)]⟩,
      ⟨some 0, [(sid, ⟨x, ((s.getD sid default).root.listeners.filter (fun l2 => l2.2)).filter (fun l2 => l2.2)⟩)]⟩], some 0,
    l ++ (((s.getD sid default).root.listeners.filter (fun l2 => l2.2)).filter (fun l2 => l2.2)).map (fun l2 => ⟨Loc.fork 1 sid, l2.1, x, (s.getD sid default).root.state⟩)⟩ : World V) sid (Updater.fn (fun _ => x)) =
      (⟨s, [⟨none, [(sid, ⟨x, (s.getD sid default).root.listeners.filter (fun l2 => l2.2)⟩)]⟩,
          ⟨some 0, [(sid, ⟨x, ((s.getD sid default).root.listeners.filter (fun l2 => l2.2)).filter (fun l2 => l2.2)⟩)]⟩], some 0,
        (l ++ (((s.getD sid default).root.listeners.filter (fun l2 => l2.2)).filter (fun l2 => l2.2)).map (fun l2 => ⟨Loc.fork 1 sid, l2.1, x, (s.getD sid default).root.state⟩)) ++
          ((s.getD sid default).root.listeners.filter (fun l2 => l2.2)).map (fun l2 => ⟨Loc.fork 0 sid, l2.1, x, (s.getD sid default).root.state⟩)⟩ : World V) := by
    rw [hsetin]
    simp [writeStateAt, listModify, assocModify, applyUpdater]
  have hcm2 : commitOp (⟨s, [⟨none, [(sid, ⟨(s.getD sid default).root.state, (s.getD sid default).root.listeners.filter (fun l2 => l2.2)⟩)]⟩,
      ⟨some 0, [(sid, ⟨x, ((s.getD sid default).root.listeners.filter (fun l2 => l2.2)).filter (fun l2 => l2.2)⟩)]⟩], none,
    l ++ (((s.getD sid default).root.listeners.filter (fun l2 => l2.2)).filter (fun l2 => l2.2)).map (fun l2 => ⟨Loc.fork 1 sid, l2.1, x, (s.getD sid default).root.state⟩)⟩ : World V) 1 =
      (⟨s, [⟨none, [(sid, ⟨x, (s.getD sid default).root.listeners.filter (fun l2 => l2.2)⟩)]⟩,
          ⟨some 0, [(sid, ⟨x, ((s.getD sid default).root.listeners.filter (fun l2 => l2.2)).filter (fun l2 => l2.2)⟩)]⟩], none,
        (l ++ (((s.getD sid default).root.listeners.filter (fun l2 => l2.2)).filter (fun l2 => l2.2)).map (fun l2 => ⟨Loc.fork 1 sid, l2.1, x, (s.getD sid default).root.state⟩)) ++
          ((s.getD sid default).root.listeners.filter (fun l2 => l2.2)).map (fun l2 => ⟨Loc.fork 0 sid, l2.1, x, (s.getD sid default).root.state⟩)⟩ : World V) := by
    simp only [commitOp, World.txAt, List.getD_cons_succ, List.getD_cons_zero, commitFold,
      List.foldl_cons, List.foldl_nil, World.storeAt]
    rw [hnc2]
    simp only [Bool.false_eq_true, if_false]
    rw [hsetin2]
  rw [hcm2]
  refine ⟨?_, ?_, ?_⟩
  · rw [getOp_noneTx _ sid rfl, getOp_noneTx _ sid rfl]
    rfl
  · simp [World.txAt, assocGet, World.rootListeners, World.storeAt]
  · have hfinal := commitOp_single (⟨s, [⟨none, [(sid, ⟨x, (s.getD sid default).root.listeners.filter (fun l2 => l2.2)⟩)]⟩,
        ⟨some 0, [(sid, ⟨x, ((s.getD sid default).root.listeners.filter (fun l2 => l2.2)).filter (fun l2 => l2.2)⟩)]⟩], none,
      (l ++ (((s.getD sid default).root.listeners.filter (fun l2 => l2.2)).filter (fun l2 => l2.2)).map (fun l2 => ⟨Loc.fork 1 sid, l2.1, x, (s.getD sid default).root.state⟩)) ++
        ((s.getD sid default).root.listeners.filter (fun l2 => l2.2)).map (fun l2 => ⟨Loc.fork 0 sid, l2.1, x, (s.getD sid default).root.state⟩)⟩ : World V) 0 sid
      ⟨x, (s.getD sid default).root.listeners.filter (fun l2 => l2.2)⟩ rfl rfl hnc hne
    rw [hfinal, getOp_noneTx _ sid rfl]
    unfold World.rootState World.storeAt
    show ((listModify sid (fun s2 => { s2 with root := { s2.root with state := x } }) s).getD sid default).root.state = x
    rw [getD_listModify_self (fun s2 => { s2 with root := { s2.root with state := x } }) hlen]

/-- Witness for C2 on `W1`: after the inner commit the outer fork holds `5`
while the root still reads `0`; after the outer commit the root reads `5`. -/
theorem c2_commit_one_level_wit :
    (getOp (commitOp (nestedSetScenario W1 0 5).1 (nestedSetScenario W1 0 5).2.2) 0).2 = (getOp W1 0).2 ∧
    assocGet 0 ((commitOp (nestedSetScenario W1 0 5).1 (nestedSetScenario W1 0 5).2.2).txAt (nestedSetScenario W1 0 5).2.1).forks = some ⟨5, (W1.rootListeners 0).filter (fun l2 => l2.2)⟩ ∧
    (getOp (commitOp (commitOp (nestedSetScenario W1 0 5).1 (nestedSetScenario W1 0 5).2.2) (nestedSetScenario W1 0 5).2.1) 0).2 = 5 :=
  c2_commit_one_level W1 0 5 rfl rfl (by decide) rfl rfl rfl

/-- C5: fork creation invariant — (i) while a transaction is ambient and
already holds a fork for a store, resolution returns that fork's location and
leaves the world completely unchanged (the fork is created at most once);
(ii) a store first touched with three transactions open (innermost ambient,
no fork anywhere except an existing fork `f1` in the outermost) resolves
through the chain: the middle and inner transactions each get a fork seeded
from the nearest ancestor's fork — state `f1.state`, listeners the
inheritable subset of `f1`'s — the outermost keeps `f1` untouched, and the
root internals are not consulted for the seed (stores untouched). -/
theorem c5_fork_creation [Inhabited V] (w : World V) (sid t1 t2 t3 : Nat) (f1 : Internals V)
    (hnf : (w.storeAt sid).nofork = false) :
    (∀ tid f, w.current = some tid → assocGet sid (w.txAt tid).forks = some f →
      getInternals w sid = (w, Loc.fork tid sid)) ∧
    (w.current = some t3 →
     (w.txAt t3).parent = some t2 → (w.txAt t2).parent = some t1 →
     assocGet sid (w.txAt t3).forks = none → assocGet sid (w.txAt t2).forks = none →
     assocGet sid (w.txAt t1).forks = some f1 →
     t1 < t2 → t2 < t3 → t2 < w.txs.length → t3 < w.txs.length →
     ((getInternals w sid).2 = Loc.fork t3 sid ∧
      assocGet sid ((getInternals w sid).1.txAt t1).forks = some f1 ∧
      assocGet sid ((getInternals w sid).1.txAt t2).forks = some ⟨f1.state, f1.listeners.filter (fun l => l.2)⟩ ∧
      assocGet sid ((getInternals w sid).1.txAt t3).forks = some ⟨f1.state, f1.listeners.filter (fun l => l.2)⟩ ∧
      (getInternals w sid).1.stores = w.stores)) := by
  constructor
  · intro tid f hcur hf
    exact getInternals_found w sid tid f hcur hnf hf
  · intro hcur hp3 hp2 hf3 hf2 hf1 h12 h23 hlen2 hlen3
    have hf1g : assocGet sid ((w.txs.getD t1 default : TxData V)).forks = some f1 := hf1
    have hg1 : upsertIn w.stores sid (t3 - 1) (some t1) w.txs = (w.txs, Loc.fork t1 sid) :=
      upsertIn_found_eq w.stores sid (t3 - 1) (t3 - 2) t1 w.txs (by omega) hnf hf1
    have hg2 : upsertIn w.stores sid t3 (some t2) w.txs =
        (listModify t2 (fun t => { t with forks := assocSet sid ⟨f1.state, f1.listeners.filter (fun l => l.2)⟩ t.forks }) w.txs, Loc.fork t2 sid) := by
      rw [upsertIn_step_parentSome_eq w.stores sid t3 (t3 - 1) t2 t1 w.txs (by omega) hnf hf2 hp2 h12, hg1]
      simp only [readLocIn, hf1g, Option.getD_some]
    have hseed : readLocIn w.stores (listModify t2 (fun t => { t with forks := assocSet sid ⟨f1.state, f1.listeners.filter (fun l => l.2)⟩ t.forks }) w.txs) (Loc.fork t2 sid) =
        ⟨f1.state, f1.listeners.filter (fun l => l.2)⟩ := by
      simp only [readLocIn]
      rw [getD_listModify_self (fun t => { t with forks := assocSet sid ⟨f1.state, f1.listeners.filter (fun l => l.2)⟩ t.forks }) hlen2]
      simp [assocGet_assocSet_self]
    have hg3 : upsertIn w.stores sid (t3 + 1) (some t3) w.txs =
        (listModify t3 (fun t => { t with forks := assocSet sid ⟨f1.state, f1.listeners.filter (fun l => l.2)⟩ t.forks })
          (listModify t2 (fun t => { t with forks := assocSet sid ⟨f1.state, f1.listeners.filter (fun l => l.2)⟩ t.forks }) w.txs),
         Loc.fork t3 sid) := by
      rw [upsertIn_step_parentSome_eq w.stores sid (t3 + 1) t3 t3 t2 w.txs rfl hnf hf3 hp3 h23, hg2]
      rw [hseed]
      simp only [filterInherit_idem]
    have hgi : getInternals w sid = ({ w with txs := listModify t3 (fun t => { t with forks := assocSet sid ⟨f1.state, f1.listeners.filter (fun l => l.2)⟩ t.forks }) (listModify t2 (fun t => { t with forks := assocSet sid ⟨f1.state, f1.listeners.filter (fun l => l.2)⟩ t.forks }) w.txs) }, Loc.fork t3 sid) := by
      simp only [getInternals, hcur, txFuel]
      rw [hg3]
    refine ⟨by rw [hgi], ?_, ?_, ?_, by rw [hgi]⟩
    · rw [hgi]
      show assocGet sid (((listModify t3 (fun t => { t with forks := assocSet sid ⟨f1.state, f1.listeners.filter (fun l => l.2)⟩ t.forks })
          (listModify t2 (fun t => { t with forks := assocSet sid ⟨f1.state, f1.listeners.filter (fun l => l.2)⟩ t.forks }) w.txs)).getD t1 default : TxData V)).forks = some f1
      rw [getD_listModify_ne _ _ (by omega : t1 ≠ t3), getD_listModify_ne _ _ (by omega : t1 ≠ t2)]
      exact hf1
    · rw [hgi]
      show assocGet sid (((listModify t3 (fun t => { t with forks := assocSet sid ⟨f1.state, f1.listeners.filter (fun l => l.2)⟩ t.forks })
          (listModify t2 (fun t => { t with forks := assocSet sid ⟨f1.state, f1.listeners.filter (fun l => l.2)⟩ t.forks }) w.txs)).getD t2 default : TxData V)).forks = some ⟨f1.state, f1.listeners.filter (fun l => l.2)⟩
      rw [getD_listModify_ne _ _ (by omega : t2 ≠ t3)]
      rw [getD_listModify_self (fun t => { t with forks := assocSet sid ⟨f1.state, f1.listeners.filter (fun l => l.2)⟩ t.forks }) hlen2]
      exact assocGet_assocSet_self sid _ _
    · rw [hgi]
      show assocGet sid (((listModify t3 (fun t => { t with forks := assocSet sid ⟨f1.state, f1.listeners.filter (fun l => l.2)⟩ t.forks })
          (listModify t2 (fun t => { t with forks := assocSet sid ⟨f1.state, f1.listeners.filter (fun l => l.2)⟩ t.forks }) w.txs)).getD t3 default : TxData V)).forks = some ⟨f1.state, f1.listeners.filter (fun l => l.2)⟩
      have hlen3b : t3 < (listModify t2 (fun t => { t with forks := assocSet sid ⟨f1.state, f1.listeners.filter (fun l => l.2)⟩ t.forks }) w.txs).length := by
        rw [length_listModify]
        exact hlen3
      rw [getD_listModify_self (fun t => { t with forks := assocSet sid ⟨f1.state, f1.listeners.filter (fun l => l.2)⟩ t.forks }) hlen3b]
      exact assocGet_assocSet_self sid _ _

/-- Witness for C5: (i) on `W7` (tx 0 ambient, fork already present) the
resolver is the identity; (ii) on `W6` (chain 0 ← 1 ← 2, fork with state `3`
and a mixed listener list only in tx 0) resolution at tx 2 threads through
tx 1 and tx 0's fork, not the root. -/
theorem c5_fork_creation_wit :
    getInternals W7 0 = (W7, Loc.fork 0 0) ∧
    ((getInternals W6 0).2 = Loc.fork 2 0 ∧
     assocGet 0 ((getInternals W6 0).1.txAt 0).forks = some ⟨3, [(7, true), (6, false)]⟩ ∧
     assocGet 0 ((getInternals W6 0).1.txAt 1).forks = some ⟨3, ([(7, true), (6, false)] : List LEntry).filter (fun l => l.2)⟩ ∧
     assocGet 0 ((getInternals W6 0).1.txAt 2).forks = some ⟨3, ([(7, true), (6, false)] : List LEntry).filter (fun l => l.2)⟩ ∧
     (getInternals W6 0).1.stores = W6.stores) :=
  ⟨(c5_fork_creation W7 0 0 0 0 ⟨5, [(7, true)]⟩ rfl).1 0 ⟨5, [(7, true)]⟩ rfl rfl,
   (c5_fork_creation W6 0 0 1 2 ⟨3, [(7, true), (6, false)]⟩ rfl).2 rfl rfl rfl rfl rfl rfl
     (by decide) (by decide) (by decide) (by decide)⟩

theorem txSetOp_log_mem [Inhabited V] (w : World V) (sid lid : Nat) (x : V)
    (hc : w.current = none) (hnf : (w.storeAt sid).nofork = false)
    (he : (w.storeAt sid).eqFn (w.rootState sid) x = false)
    (hf : ∀ b, ((lid, b) : LEntry) ∉ (w.rootListeners sid).filter (fun l => l.2)) :
    ∀ ev ∈ (txActRun (createTransaction w w.current).1 (createTransaction w w.current).2
        (Prog.setS sid (Updater.val x))).1.log, ev ∈ w.log ∨ ev.lid ≠ lid := by
  have e1 : (txActRun (createTransaction w none).1 (createTransaction w none).2 (Prog.setS sid (Updater.val x))).1
      = { (setOp { w with txs := w.txs ++ [⟨none, []⟩], current := some w.txs.length } sid (Updater.val x)) with current := w.current } := rfl
  rw [hc] at e1
  rw [setOp_freshTx w sid (Updater.val x) hnf he] at e1
  rw [hc, e1]
  intro ev hev
  have hev2 : ev ∈ w.log ++ ((w.rootListeners sid).filter (fun l => l.2)).map (fun l => (⟨Loc.fork w.txs.length sid, l.1, applyUpdater (Updater.val x) (w.rootState sid), w.rootState sid⟩ : Ev V)) := hev
  rcases List.mem_append.mp hev2 with h | h
  · exact Or.inl h
  · right
    obtain ⟨l2, hl2, rfl⟩ := List.mem_map.mp h
    intro hlid
    have hl1 : l2.1 = lid := hlid
    refine hf l2.2 ?_
    rw [← hl1, Prod.mk.eta]
    exact hl2

theorem rootSetOp_log_mem [Inhabited V] (w : World V) (sid lid : Nat) (x : V)
    (hc : w.current = none)
    (he : (w.storeAt sid).eqFn (w.rootState sid) x = false)
    (hf : ∀ b, ((lid, b) : LEntry) ∉ w.rootListeners sid) :
    ∀ ev ∈ (setOp w sid (Updater.val x)).log, ev ∈ w.log ∨ ev.lid ≠ lid := by
  have h0 := setOp_root_ne w sid (Updater.val x) hc he
  rw [h0]
  intro ev hev
  have hev2 : ev ∈ w.log ++ (w.rootListeners sid).map (fun l => (⟨Loc.root sid, l.1, applyUpdater (Updater.val x) (w.rootState sid), w.rootState sid⟩ : Ev V)) := hev
  rcases List.mem_append.mp hev2 with h | h
  · exact Or.inl h
  · right
    obtain ⟨l2, hl2, rfl⟩ := List.mem_map.mp h
    intro hlid
    have hl1 : l2.1 = lid := hlid
    refine hf l2.2 ?_
    rw [← hl1, Prod.mk.eta]
    exact hl2

/-- C6: listener inheritance — (A) the fork created for a store inside a
fresh transaction holds exactly the inheritable subset of the seed (root)
listeners; (B) a listener subscribed with `inheritable = true` outside any
transaction is invoked for an effective write performed inside a
transaction's fork; (C) a listener tagged non-inheritable at the root is
never invoked by a write inside a transaction fork; (D) a listener subscribed
(non-inheritable) inside one transaction is never invoked by a write in a
sibling transaction, nor by a write at the root scope. -/
theorem c6_listener_inheritance [Inhabited V] (w : World V) (sid lid : Nat) (x : V)
    (hc : w.current = none) (hnf : (w.storeAt sid).nofork = false) :
    (assocGet sid ((getInternals { w with txs := w.txs ++ [⟨none, []⟩], current := some w.txs.length } sid).1.txAt w.txs.length).forks =
      some ⟨w.rootState sid, (w.rootListeners sid).filter (fun l => l.2)⟩) ∧
    ((lid, true) ∈ w.rootListeners sid →
      (w.storeAt sid).eqFn (w.rootState sid) x = false →
      (⟨Loc.fork w.txs.length sid, lid, x, w.rootState sid⟩ : Ev V) ∈
        (txActRun (createTransaction w w.current).1 (createTransaction w w.current).2 (Prog.setS sid (Updater.val x))).1.log) ∧
    ((∀ b, (lid, b) ∈ w.rootListeners sid → b = false) →
      (w.storeAt sid).eqFn (w.rootState sid) x = false →
      ∀ ev ∈ (txActRun (createTransaction w w.current).1 (createTransaction w w.current).2 (Prog.setS sid (Updater.val x))).1.log,
        ev ∈ w.log ∨ ev.lid ≠ lid) ∧
    ((∀ b, (lid, b) ∉ w.rootListeners sid) →
      (w.storeAt sid).eqFn (w.rootState sid) x = false →
      (∀ ev ∈ (siblingScenario w sid lid x).1.log, ev ∈ w.log ∨ ev.lid ≠ lid) ∧
      (∀ ev ∈ (siblingScenario w sid lid x).2.log, ev ∈ w.log ∨ ev.lid ≠ lid)) := by
  refine ⟨?_, ?_, ?_, ?_⟩
  · rw [getInternals_freshTx w sid hnf]
    unfold World.txAt
    rw [getD_append_length]
    simp [assocGet]
  · intro hmem he
    have e1 : (txActRun (createTransaction w w.current).1 (createTransaction w w.current).2 (Prog.setS sid (Updater.val x))).1
        = { (setOp { w with txs := w.txs ++ [⟨w.current, []⟩], current := some w.txs.length } sid (Updater.val x)) with current := w.current } := rfl
    rw [hc] at e1
    rw [setOp_freshTx w sid (Updater.val x) hnf he] at e1
    rw [hc, e1]
    show (⟨Loc.fork w.txs.length sid, lid, x, w.rootState sid⟩ : Ev V) ∈
      w.log ++ ((w.rootListeners sid).filter (fun l => l.2)).map (fun l => ⟨Loc.fork w.txs.length sid, l.1, applyUpdater (Updater.val x) (w.rootState sid), w.rootState sid⟩)
    refine List.mem_append_right _ ?_
    have h2 : ((lid, true) : LEntry) ∈ (w.rootListeners sid).filter (fun l => l.2) :=
      List.mem_filter.mpr ⟨hmem, rfl⟩
    exact List.mem_map_of_mem _ h2
  · intro hfb he
    refine txSetOp_log_mem w sid lid x hc hnf he ?_
    intro b hb
    have hbf := List.mem_filter.mp hb
    have hfalse := hfb b hbf.1
    have htrue : b = true := hbf.2
    rw [hfalse] at htrue
    exact Bool.noConfusion htrue
  · intro hfresh he
    have hws : (txActRun (createTransaction w w.current).1 (createTransaction w w.current).2 (Prog.subS sid lid false)).1 =
        subWorld w sid lid := by
      rw [hc]
      have e0 : (txActRun (createTransaction w none).1 (createTransaction w none).2 (Prog.subS sid lid false)).1
          = { (subscribeOp { w with txs := w.txs ++ [⟨none, []⟩], current := some w.txs.length } sid lid false) with current := w.current } := rfl
      rw [hc] at e0
      rw [subscribeOp_freshTx w sid lid false hnf] at e0
      exact e0
    constructor
    · intro ev hev
      simp only [siblingScenario] at hev
      rw [hws] at hev
      exact txSetOp_log_mem (subWorld w sid lid) sid lid x rfl hnf he
        (fun b hb => hfresh b (List.mem_filter.mp hb).1) ev hev
    · intro ev hev
      simp only [siblingScenario] at hev
      rw [hws] at hev
      exact rootSetOp_log_mem (subWorld w sid lid) sid lid x rfl he hfresh ev hev

/-- Witness for C6 on `W1` (inheritable listener `7` and non-inheritable
listener `9` at the root): the fork holds only `7`; an effective write of `2`
inside a transaction invokes `7` but never `9`; and a fresh listener `5`
subscribed inside one transaction is invoked neither by a sibling
transaction's write nor by a root write. -/
theorem c6_listener_inheritance_wit :
    (assocGet 0 ((getInternals { W1 with txs := W1.txs ++ [⟨none, []⟩], current := some W1.txs.length } 0).1.txAt W1.txs.length).forks =
      some ⟨W1.rootState 0, (W1.rootListeners 0).filter (fun l => l.2)⟩) ∧
    (⟨Loc.fork W1.txs.length 0, 7, 2, W1.rootState 0⟩ : Ev Nat) ∈
      (txActRun (createTransaction W1 W1.current).1 (createTransaction W1 W1.current).2 (Prog.setS 0 (Updater.val 2))).1.log ∧
    (∀ ev ∈ (txActRun (createTransaction W1 W1.current).1 (createTransaction W1 W1.current).2 (Prog.setS 0 (Updater.val 2))).1.log,
      ev ∈ W1.log ∨ ev.lid ≠ 9) ∧
    (∀ ev ∈ (siblingScenario W1 0 5 2).1.log, ev ∈ W1.log ∨ ev.lid ≠ 5) := by
  have h7 := c6_listener_inheritance W1 0 7 2 rfl rfl
  have h9 := c6_listener_inheritance W1 0 9 2 rfl rfl
  have h5 := c6_listener_inheritance W1 0 5 2 rfl rfl
  exact ⟨h7.1, h7.2.1 (by decide) (by rfl), h9.2.2.1 (by decide) (by rfl),
    (h5.2.2.2 (by decide) (by rfl)).1⟩

/-- C7: repeatable commit — `commit()` carries no committed-state guard: for a
parentless transaction holding the single fork `(sid, f)`, committing from the
root scope sets the root state to `f.state`; after the root has diverged to
`d` (via an effective plain set, as an intervening child transaction's commit
would do), invoking `commit()` again re-applies `f.state`, overwriting the
divergence and re-firing the listeners visible at the parent (root) scope
with `(f.state, d)`. -/
theorem c7_repeatable_commit [Inhabited V] (w : World V) (tid sid : Nat) (f : Internals V) (d : V)
    (hc : w.current = none) (hlen : sid < w.stores.length)
    (htx : w.txAt tid = ⟨none, [(sid, f)]⟩)
    (hnc : (w.storeAt sid).nocommit = false)
    (hne1 : (w.storeAt sid).eqFn (w.rootState sid) f.state = false)
    (hd : (w.storeAt sid).eqFn f.state d = false)
    (hne2 : (w.storeAt sid).eqFn d f.state = false) :
    World.rootState (commitOp w tid) sid = f.state ∧
    World.rootState (setOp (commitOp w tid) sid (Updater.val d)) sid = d ∧
    World.rootState (commitOp (setOp (commitOp w tid) sid (Updater.val d)) tid) sid = f.state ∧
    (commitOp (setOp (commitOp w tid) sid (Updater.val d)) tid).log =
      (setOp (commitOp w tid) sid (Updater.val d)).log ++
        (w.rootListeners sid).map (fun l => ⟨Loc.root sid, l.1, f.state, d⟩) := by
  have h1 := commitOp_single w tid sid f hc htx hnc hne1
  have hlen1 : sid < (commitOp w tid).stores.length := by
    rw [h1]
    simp only [length_listModify]
    exact hlen
  have hw1s : (commitOp w tid).storeAt sid = { w.storeAt sid with root := { (w.storeAt sid).root with state := f.state } } := by
    rw [h1]
    unfold World.storeAt
    exact getD_listModify_self (fun s => { s with root := { s.root with state := f.state } }) hlen
  have ha : World.rootState (commitOp w tid) sid = f.state := by
    unfold World.rootState
    rw [hw1s]
  have hcur1 : (commitOp w tid).current = none := by
    rw [h1]
    exact hc
  have he2 : ((commitOp w tid).storeAt sid).eqFn (World.rootState (commitOp w tid) sid)
      (applyUpdater (Updater.val d) (World.rootState (commitOp w tid) sid)) = false := by
    rw [ha, hw1s]
    exact hd
  have h2 := setOp_root_ne (commitOp w tid) sid (Updater.val d) hcur1 he2
  have hlen2 : sid < (setOp (commitOp w tid) sid (Updater.val d)).stores.length := by
    rw [h2]
    simp only [length_listModify]
    exact hlen1
  have hw2s : (setOp (commitOp w tid) sid (Updater.val d)).storeAt sid = { (commitOp w tid).storeAt sid with root := { ((commitOp w tid).storeAt sid).root with state := d } } := by
    rw [h2]
    unfold World.storeAt
    exact getD_listModify_self (fun s => { s with root := { s.root with state := applyUpdater (Updater.val d) ((commitOp w tid).rootState sid) } }) hlen1
  have hb : World.rootState (setOp (commitOp w tid) sid (Updater.val d)) sid = d := by
    unfold World.rootState
    rw [hw2s]
  have hcur2 : (setOp (commitOp w tid) sid (Updater.val d)).current = none := by
    rw [h2]
    exact hcur1
  have htx2 : (setOp (commitOp w tid) sid (Updater.val d)).txAt tid = ⟨none, [(sid, f)]⟩ := by
    unfold World.txAt
    rw [h2, h1]
    exact htx
  have hnc2 : ((setOp (commitOp w tid) sid (Updater.val d)).storeAt sid).nocommit = false := by
    rw [hw2s, hw1s]
    exact hnc
  have hne3 : ((setOp (commitOp w tid) sid (Updater.val d)).storeAt sid).eqFn
      (World.rootState (setOp (commitOp w tid) sid (Updater.val d)) sid) f.state = false := by
    rw [hb, hw2s, hw1s]
    exact hne2
  have h3 := commitOp_single (setOp (commitOp w tid) sid (Updater.val d)) tid sid f hcur2 htx2 hnc2 hne3
  have hL2 : World.rootListeners (setOp (commitOp w tid) sid (Updater.val d)) sid = w.rootListeners sid := by
    unfold World.rootListeners
    rw [hw2s, hw1s]
  refine ⟨ha, hb, ?_, ?_⟩
  · unfold World.rootState World.storeAt
    rw [h3]
    rw [getD_listModify_self _ hlen2]
  · rw [h3, hL2, hb]

/-- Witness for C7 on `W5` (open transaction 0 with fork state `5`, root at
`0`): the first commit sets the root to `5`, a plain set diverges it to `1`,
and a second commit overwrites the divergence back to `5`, re-firing both
root listeners with `(5, 1)`. -/
theorem c7_repeatable_commit_wit :
    World.rootState (commitOp W5 0) 0 = 5 ∧
    World.rootState (setOp (commitOp W5 0) 0 (Updater.val 1)) 0 = 1 ∧
    World.rootState (commitOp (setOp (commitOp W5 0) 0 (Updater.val 1)) 0) 0 = 5 ∧
    (commitOp (setOp (commitOp W5 0) 0 (Updater.val 1)) 0).log =
      (setOp (commitOp W5 0) 0 (Updater.val 1)).log ++
        (W5.rootListeners 0).map (fun l => ⟨Loc.root 0, l.1, 5, 1⟩) :=
  c7_repeatable_commit W5 0 0 ⟨5, [(7, true)]⟩ 1 rfl (by decide) rfl rfl rfl rfl rfl

/-- C4, counterexample to the claim as stated: on `W2` (root state `0`, one
INHERITABLE listener `7` registered at the root, outside any transaction) the
body `set(1); throw 3` makes `transaction` propagate the error — yet listener
`7`, registered outside the transaction, HAS been invoked: its inherited copy
in the fork fired with `(1, 0)` before the throw.  This refutes the conjunct
"no listener registered outside the transaction is invoked". -/
theorem c4_sync_failure_cex :
    (run W2 (Prog.txn (Prog.seq (Prog.setS 0 (Updater.val 1)) (Prog.throwE 3)))).2 = some 3 ∧
    (run W2 (Prog.txn (Prog.seq (Prog.setS 0 (Updater.val 1)) (Prog.throwE 3)))).1.log =
      [⟨Loc.fork 0 0, 7, 1, 0⟩] :=
  ⟨rfl, rfl⟩

/-- C4, amended: for every transaction body that throws synchronously inside
`act`, the exception propagates to the caller of `transaction` after the
ambient scope pointer is restored, commit is never invoked, every container
read outside afterwards returns exactly its pre-transaction state (the stores
are untouched), and no listener invocation occurs at any root registry — every
event logged during the failed transaction fired from a transaction fork (in
particular a non-inheritable listener registered at the root is never invoked;
an inheritable one may fire inside the fork before the throw).  Stores are
assumed fork-enabled (`txConfig` with `fork: false` was not applied), which is
what `create` produces. -/
theorem c4_sync_failure_atomicity [Inhabited V] (w : World V) (p : Prog V) (e : Nat)
    (hc : w.current = none) (hnfall : noForkAll w)
    (herr : (run w (Prog.txn p)).2 = some e) :
    (run w (Prog.txn p)).1.current = none ∧
    (run w (Prog.txn p)).1.stores = w.stores ∧
    (∀ sid, (getOp (run w (Prog.txn p)).1 sid).2 = (getOp w sid).2) ∧
    (∃ evs, (run w (Prog.txn p)).1.log = w.log ++ evs ∧ evs.all Ev.isFork = true) := by
  have hr : (run { (createTransaction w w.current).1 with current := some (createTransaction w w.current).2 } p).2 = some e := by
    have herr2 := herr
    simp only [run] at herr2
    cases hr0 : (run { (createTransaction w w.current).1 with current := some (createTransaction w w.current).2 } p).2 with
    | some e2 =>
      rw [hr0] at herr2
      exact herr2
    | none =>
      rw [hr0] at herr2
      exact herr2
  have hso : SameOutside { (createTransaction w w.current).1 with current := some (createTransaction w w.current).2 }
      (run { (createTransaction w w.current).1 with current := some (createTransaction w w.current).2 } p).1 :=
    run_sameOutside p _ (createTransaction w w.current).2 rfl (noForkAll_of_stores_eq rfl hnfall)
  obtain ⟨hs, hcur, hlen2, hpar, evs, hlog, hforkall⟩ := hso
  have hres : (run w (Prog.txn p)).1 =
      { (run { (createTransaction w w.current).1 with current := some (createTransaction w w.current).2 } p).1 with current := w.current } := by
    simp only [run, hr]
    rfl
  have hcur2 : (run w (Prog.txn p)).1.current = none := by
    rw [hres]
    exact hc
  have hstores : (run w (Prog.txn p)).1.stores = w.stores := by
    rw [hres]
    exact hs
  refine ⟨hcur2, hstores, ?_, evs, ?_, hforkall⟩
  · intro sid
    rw [getOp_noneTx _ sid hcur2, getOp_noneTx w sid hc]
    unfold World.rootState World.storeAt
    rw [hstores]
  · rw [hres]
    exact hlog

/-- Witness for C4 (amended) on `W2` with the body `set(1); throw 3`: the
error propagates, the pointer is restored, the root still reads `0`, and the
only logged event fired from the fork. -/
theorem c4_sync_failure_atomicity_wit :
    (run W2 (Prog.txn (Prog.seq (Prog.setS 0 (Updater.val 1)) (Prog.throwE 3)))).1.current = none ∧
    (run W2 (Prog.txn (Prog.seq (Prog.setS 0 (Updater.val 1)) (Prog.throwE 3)))).1.stores = W2.stores ∧
    (getOp (run W2 (Prog.txn (Prog.seq (Prog.setS 0 (Updater.val 1)) (Prog.throwE 3)))).1 0).2 = (getOp W2 0).2 ∧
    (∃ evs, (run W2 (Prog.txn (Prog.seq (Prog.setS 0 (Updater.val 1)) (Prog.throwE 3)))).1.log = W2.log ++ evs ∧ evs.all Ev.isFork = true) := by
  have h := c4_sync_failure_atomicity W2 (Prog.seq (Prog.setS 0 (Updater.val 1)) (Prog.throwE 3)) 3
    rfl (by intro sid; cases sid <;> rfl) (by rfl)
  exact ⟨h.1, h.2.1, h.2.2.1 0, h.2.2.2⟩

/-- Witness for C1 on `W1`: setting `5` inside a transaction leaves the
outside read at `0` until commit, after which it reads `5`. -/
theorem c1_snapshot_isolation_wit :
    (getOp (txActRun (createTransaction W1 W1.current).1 (createTransaction W1 W1.current).2 (Prog.setS 0 (Updater.val 5))).1 0).2 = (getOp W1 0).2 ∧
    (getOp (commitOp (txActRun (createTransaction W1 W1.current).1 (createTransaction W1 W1.current).2 (Prog.setS 0 (Updater.val 5))).1 (createTransaction W1 W1.current).2) 0).2 = 5 :=
  c1_snapshot_isolation W1 0 5 rfl (by decide) rfl rfl rfl

/-- C3: the `set` contract — `set` resolves a function argument against the
currently visible state (`applyUpdater` on the resolved `Internals`' state),
compares the result to the current value with the store's equality policy,
performs no write and invokes no listener when equal (the world is exactly the
resolver's output), and otherwise replaces the state of the currently visible
`Internals` and synchronously appends one invocation per listener registered
there, in subscription order, carrying `(newState, oldState)`. -/
theorem c3_set_contract [Inhabited V] (w : World V) (sid : Nat) (u : Updater V) :
    ((w.storeAt sid).eqFn (readLoc (getInternals w sid).1 (getInternals w sid).2).state
        (applyUpdater u (readLoc (getInternals w sid).1 (getInternals w sid).2).state) = true →
      setOp w sid u = (getInternals w sid).1) ∧
    ((w.storeAt sid).eqFn (readLoc (getInternals w sid).1 (getInternals w sid).2).state
        (applyUpdater u (readLoc (getInternals w sid).1 (getInternals w sid).2).state) = false →
      setOp w sid u =
        { writeStateAt (getInternals w sid).1 (getInternals w sid).2
            (applyUpdater u (readLoc (getInternals w sid).1 (getInternals w sid).2).state) with
          log := (getInternals w sid).1.log ++
            (readLoc (getInternals w sid).1 (getInternals w sid).2).listeners.map
              (fun l => ⟨(getInternals w sid).2, l.1,
                applyUpdater u (readLoc (getInternals w sid).1 (getInternals w sid).2).state,
                (readLoc (getInternals w sid).1 (getInternals w sid).2).state⟩) }) :=
  ⟨fun h => setOp_eqTrue w sid u h, fun h => setOp_eqFalse w sid u h⟩

/-- Witness for C3 on the concrete world `W1`: an equal write is a complete
no-op, and an effective write of `2` fires the two root listeners in
subscription order with `(2, 0)`. -/
theorem c3_set_contract_wit :
    setOp W1 0 (Updater.val 0) = (getInternals W1 0).1 ∧
    (setOp W1 0 (Updater.val 2)).log = [⟨Loc.root 0, 9, 2, 0⟩, ⟨Loc.root 0, 7, 2, 0⟩] := by
  constructor
  · exact (c3_set_contract W1 0 (Updater.val 0)).1 (by rfl)
  · rw [(c3_set_contract W1 0 (Updater.val 2)).2 (by rfl)]
    rfl

/-- C8: no-op idempotence — on any world whose ambient pointer is valid, for a
store whose equality policy is reflexive, `C.set(C.get())` leaves the world
(and hence the visible state and the log) exactly as `C.get()` left it, and no
subscriber is invoked; more generally, whenever the resolved next value is
equal to the currently visible value under the equality policy, `set` performs
no write and fires no listener (the world is exactly the resolver's output). -/
theorem c8_noop_idempotence [Inhabited V] (w : World V) (sid : Nat)
    (hv : ∀ t2, w.current = some t2 → t2 < w.txs.length)
    (hrefl : ∀ a, (w.storeAt sid).eqFn a a = true) :
    setOp (getOp w sid).1 sid (Updater.val (getOp w sid).2) = (getOp w sid).1 ∧
    (∀ u, (w.storeAt sid).eqFn (readLoc (getInternals w sid).1 (getInternals w sid).2).state
        (applyUpdater u (readLoc (getInternals w sid).1 (getInternals w sid).2).state) = true →
      setOp w sid u = (getInternals w sid).1) := by
  constructor
  · have hgo : (getOp w sid).1 = (getInternals w sid).1 := rfl
    have hst : ((getInternals w sid).1.storeAt sid) = w.storeAt sid := by
      unfold World.storeAt
      rw [getInternals_stores]
    have hstable := getInternals_stable w sid hv
    have hcond : (((getOp w sid).1).storeAt sid).eqFn
        (readLoc (getInternals (getOp w sid).1 sid).1 (getInternals (getOp w sid).1 sid).2).state
        (applyUpdater (Updater.val (getOp w sid).2)
          (readLoc (getInternals (getOp w sid).1 sid).1 (getInternals (getOp w sid).1 sid).2).state) = true := by
      rw [hgo, hstable, hst]
      exact hrefl _
    calc setOp (getOp w sid).1 sid (Updater.val (getOp w sid).2)
        = (getInternals (getOp w sid).1 sid).1 := setOp_eqTrue _ _ _ hcond
      _ = (getOp w sid).1 := by rw [hgo, hstable]
  · intro u h
    exact setOp_eqTrue w sid u h

/-- Witness for C8 on `W1` (reflexive boolean equality on naturals):
`set(get())` is a complete no-op, and an explicitly equal write is too. -/
theorem c8_noop_idempotence_wit :
    setOp (getOp W1 0).1 0 (Updater.val (getOp W1 0).2) = (getOp W1 0).1 ∧
    setOp W1 0 (Updater.val 0) = (getInternals W1 0).1 := by
  have h := c8_noop_idempotence W1 0 (fun t2 h2 => Option.noConfusion h2)
    (by intro a; simp [W1, World.storeAt, natEq])
  exact ⟨h.1, h.2 (Updater.val 0) (by rfl)⟩

/-- C9, counterexample to the claim as stated: the structural comparator
`shallow` of `utils.ts` does NOT treat the two zero-sign representations as
equal — neither at the top level (non-objects fall through to `false` after
the `Object.is` short-circuit fails) nor as field values (fields are compared
with `Object.is`, which distinguishes `+0` from `-0`). -/
theorem c9_equality_edge_cex :
    shallow (JVal.prim JPrim.negZero) (JVal.prim (JPrim.int 0)) = false ∧
    shallow (JVal.obj [("a", JPrim.negZero)]) (JVal.obj [("a", JPrim.int 0)]) = false :=
  ⟨rfl, rfl⟩

/-- C9, amended: the default equality policy (`Object.is`) is reflexive
identity — every primitive value equals itself, including the not-a-number
sentinel — and distinguishes `+0` from `-0`; the provided structural
comparator `shallow` ALSO distinguishes the zero signs, both at the top level
and as field values, because its per-field comparison is `Object.is` (it does
equate distinct objects with `Object.is`-equal fields, e.g. NaN fields). -/
theorem c9_equality_edge_cases :
    (∀ p : JPrim, sameValue p p = true) ∧
    sameValue JPrim.nan JPrim.nan = true ∧
    sameValue (JPrim.int 0) JPrim.negZero = false ∧
    sameValue JPrim.negZero (JPrim.int 0) = false ∧
    shallow (JVal.prim JPrim.negZero) (JVal.prim (JPrim.int 0)) = false ∧
    shallow (JVal.obj [("a", JPrim.negZero)]) (JVal.obj [("a", JPrim.int 0)]) = false ∧
    shallow (JVal.obj [("a", JPrim.nan)]) (JVal.obj [("a", JPrim.nan)]) = true := by
  refine ⟨?_, rfl, rfl, rfl, rfl, rfl, rfl⟩
  intro p
  cases p <;> simp [sameValue]

/-- C10: transaction opt-out — for a store carrying the `nofork` symbol the
resolver returns the root `Internals` unchanged even while a transaction is
ambient (so no fork is ever recorded for it); consequently `get` reads the
root state directly, `set` writes the root state and fires the root listeners
immediately (neither isolated nor deferred to commit), and `subscribe`
registers in the root registry; and a store carrying the `nocommit` symbol is
silently skipped by a transaction's commit even when a fork for it was
recorded (the commit leaves the world exactly unchanged). -/
theorem c10_transaction_optout [Inhabited V] (w : World V) (sid tid lid : Nat)
    (u : Updater V) (inh : Bool) (f : Internals V) :
    ((w.storeAt sid).nofork = true → getInternals w sid = (w, Loc.root sid)) ∧
    ((w.storeAt sid).nofork = true → getOp w sid = (w, w.rootState sid)) ∧
    ((w.storeAt sid).nofork = true →
      (w.storeAt sid).eqFn (w.rootState sid) (applyUpdater u (w.rootState sid)) = false →
      setOp w sid u =
        { w with
          stores := listModify sid (fun s => { s with root := { s.root with state := applyUpdater u (w.rootState sid) } }) w.stores,
          log := w.log ++ (w.rootListeners sid).map (fun l => ⟨Loc.root sid, l.1, applyUpdater u (w.rootState sid), w.rootState sid⟩) }) ∧
    ((w.storeAt sid).nofork = true →
      subscribeOp w sid lid inh =
        { w with stores := listModify sid (fun s => { s with root := { s.root with listeners := assocSet lid inh (w.rootListeners sid) } }) w.stores }) ∧
    ((w.storeAt sid).nocommit = true → (w.txAt tid).forks = [(sid, f)] → commitOp w tid = w) ∧
    (sid < w.stores.length →
      ((txConfig w sid false true).storeAt sid).nofork = true ∧
      ((txConfig w sid true false).storeAt sid).nocommit = true) := by
  refine ⟨fun hnf => getInternals_nofork w sid hnf, ?_, ?_, ?_, ?_, ?_⟩
  · intro hnf
    simp only [getOp, getInternals_nofork w sid hnf, readLoc, readLocIn]
    rfl
  · intro hnf he
    exact setOp_resolvedRoot_ne w sid u (getInternals_nofork w sid hnf) he
  · intro hnf
    simp only [subscribeOp, getInternals_nofork w sid hnf, readLoc, readLocIn,
      writeListenersAt, World.rootListeners, World.storeAt]
  · intro hnc hforks
    simp only [commitOp, hforks, commitFold, List.foldl_cons, List.foldl_nil]
    have hx : ((({ w with current := (w.txAt tid).parent } : World V)).storeAt sid).nocommit = true := hnc
    rw [if_pos hx]
  · intro hlen
    unfold World.storeAt txConfig
    rw [getD_listModify_self _ hlen, getD_listModify_self _ hlen]
    simp

/-- Witness for C10 on `W4`: store 0 is `nofork`-configured (resolver returns
the root while transaction 0 is open; a set inside would write the root
immediately), store 1 is `nocommit`-configured and its recorded fork is
skipped by commit. -/
theorem c10_transaction_optout_wit :
    getInternals W4 0 = (W4, Loc.root 0) ∧
    getOp W4 0 = (W4, 0) ∧
    World.rootState (setOp W4 0 (Updater.val 1)) 0 = 1 ∧
    (subscribeOp W4 0 5 false).stores.map (fun s => s.root.listeners) = [[(9, false), (5, false)], []] ∧
    commitOp W4 0 = W4 ∧
    ((txConfig W4 0 false true).storeAt 0).nofork = true := by
  have h := c10_transaction_optout W4 0 0 5 (Updater.val 1) false ⟨5, []⟩
  have h2 := c10_transaction_optout W4 1 0 5 (Updater.val 1) false ⟨5, []⟩
  refine ⟨h.1 rfl, h.2.1 rfl, ?_, ?_, h2.2.2.2.2.1 rfl rfl, (h.2.2.2.2.2 (by decide)).1⟩
  · rw [h.2.2.1 rfl (by rfl)]
    rfl
  · rw [h.2.2.2.1 rfl]
    rfl

end Stav
